import Mathlib

/-!
# ImageRetrieval: feature extractors, distance metrics and ranking

A shallow embedding of the retrieval programs of the repository
(`baseline_match.cpp`, `histogram_match.cpp`, `multi_histogram_match.cpp`,
`texture_color_match.cpp`, `deep_embedding_match.cpp`, `custom_sunset_match.cpp`).

Conventions of the embedding.

* `float`/`double` arithmetic is taken as exact: numbers live in an arbitrary
  linearly ordered field `K` (instantiate `K := ℚ` to run the definitions,
  `K := ℝ` for the real-number reading).  `sqrt` of `<cmath>` is a parameter.
* `int` values are elements of `ℤ`; the bin counts used by the programs are 8
  and 16, so no intermediate `int` leaves the 32-bit range.
* `std::vector<float>` is `List K`; the index loops `for (i = 0; i < size; i++)`
  are left folds in index order.
* `cv::Mat` is a row count, a column count and a pixel accessor; a read or a
  write outside the valid index range, and a floating-point division whose
  divisor the source does not guard and which is zero, are faults
  (`Except Fault`).
* `std::sort` is a parameter of the ranking stage, constrained by the
  guarantee the C++ standard gives for it (`StdSortSpec`).
-/

namespace ImageRetrieval

/-! ## Data model -/

/-- Ways in which a run leaves exact arithmetic or valid memory. -/
inductive Fault where
  | divisionByZero
  | outOfBounds
  | targetNotFound
  deriving DecidableEq, Repr

/-- An 8-bit three-channel pixel, `cv::Vec3b`; stored order is B, G, R. -/
structure Vec3b where
  c0 : Fin 256
  c1 : Fin 256
  c2 : Fin 256
  deriving DecidableEq, Repr

/-- A matrix, `cv::Mat`: `rows`, `cols` and the element stored at `(i, j)`. -/
structure Mat (α : Type) where
  rows : Nat
  cols : Nat
  data : Nat → Nat → α

/-- Checked element access, `image.at<T>(i, j)` with `int` indices. -/
def Mat.at? {α : Type} (m : Mat α) (i j : Int) : Except Fault α :=
  if 0 ≤ i ∧ i < m.rows ∧ 0 ≤ j ∧ j < m.cols then
    Except.ok (m.data i.toNat j.toNat)
  else
    Except.error Fault.outOfBounds

/-- The conversion `(int) x` of a floating-point value: truncation towards zero. -/
def toInt {K : Type} [LinearOrderedField K] [FloorRing K] (x : K) : Int :=
  if 0 ≤ x then Int.floor x else Int.ceil x

/-- Floating-point division by a divisor the source leaves unguarded. -/
def fdiv {K : Type} [LinearOrderedField K] (x y : K) : Except Fault K :=
  if y = 0 then Except.error Fault.divisionByZero else Except.ok (x / y)

/-- The statement `histogram[idx]++` on a `std::vector<float>`. -/
def increment {K : Type} [LinearOrderedField K] (histogram : List K) (idx : Int) :
    Except Fault (List K) :=
  if 0 ≤ idx ∧ idx < histogram.length then
    Except.ok (histogram.modify (fun x => x + 1) idx.toNat)
  else
    Except.error Fault.outOfBounds

/-- Checked element access `v[i]` on a `std::vector` with an `int` index. -/
def vecAt? {α : Type} (v : List α) (i : Int) : Except Fault α :=
  match v[i.toNat]? with
  | some x => if 0 ≤ i then Except.ok x else Except.error Fault.outOfBounds
  | none => Except.error Fault.outOfBounds

/-- The values `lo, lo + 1, ..., hi - 1` a loop `for (i = lo; i < hi; i++)` visits. -/
def intRange (lo hi : Int) : List Int :=
  (List.range (hi - lo).toNat).map (fun (k : Nat) => lo + (k : Int))

/-- The loop nest `for (i = r0; i < r1; i++) for (j = c0; j < c1; j++) body`,
threading the variables the body updates. -/
def forGrid {σ : Type} (r0 r1 c0 c1 : Int) (body : σ → Int → Int → Except Fault σ)
    (init : σ) : Except Fault σ :=
  (intRange r0 r1).foldlM
    (fun s i => (intRange c0 c1).foldlM (fun s j => body s i j) s) init

/-- The loop `for (i = 0; i < histogram.size(); i++) histogram[i] = histogram[i] / totalPixels`
without a guard on `totalPixels`. -/
def divideAll {K : Type} [LinearOrderedField K] (histogram : List K) (totalPixels : K) :
    Except Fault (List K) :=
  match histogram with
  | [] => Except.ok []
  | x :: xs =>
    match fdiv x totalPixels with
    | Except.error e => Except.error e
    | Except.ok y =>
      match divideAll xs totalPixels with
      | Except.error e => Except.error e
      | Except.ok ys => Except.ok (y :: ys)

/-- The elements of a matrix in row-major order. -/
def Mat.entries {α : Type} (m : Mat α) : List α :=
  (List.range m.rows).flatMap (fun i => (List.range m.cols).map (fun j => m.data i j))

/-- The maximum that `cv::minMaxLoc` reports for a matrix (`0` for an empty one). -/
def Mat.maxVal {K : Type} [LinearOrderedField K] (m : Mat K) : K :=
  match m.entries with
  | [] => 0
  | x :: xs => xs.foldl max x

/-- The record `struct ImageMatch`: a file name and its distance from the target. -/
structure ImageMatch (K : Type) where
  filename : String
  distance : K
  deriving DecidableEq, Repr

/-- The comparison `ImageMatch::operator<`: by distance only. -/
def ImageMatch.lt {K : Type} [LinearOrderedField K] (a b : ImageMatch K) : Prop :=
  a.distance < b.distance

instance {K : Type} [LinearOrderedField K] : LT (ImageMatch K) := ⟨ImageMatch.lt⟩

instance {K : Type} [LinearOrderedField K] (a b : ImageMatch K) : Decidable (a < b) :=
  inferInstanceAs (Decidable (a.distance < b.distance))

/-! ## The ranking stage shared by every program -/

/-- The guarantee the C++ standard gives for `std::sort(first, last)` on a
vector of `ImageMatch`: the result is a rearrangement of the input in which no
element compares less than an earlier one.  Nothing is promised about the
relative order of elements that compare equivalent. -/
def StdSortSpec {K : Type} [LinearOrderedField K]
    (sort : List (ImageMatch K) → List (ImageMatch K)) : Prop :=
  ∀ l, (sort l).Perm l ∧ (sort l).Pairwise (fun a b => ¬ b < a)

/-- The loop that computes one distance per corpus descriptor and `push_back`s
the `ImageMatch` records in enumeration order. -/
def distanceStage {K : Type} (metric : List K → List K → K) (target : List K)
    (corpus : List (String × List K)) : List (ImageMatch K) :=
  corpus.map (fun e => { filename := e.1, distance := metric target e.2 })

/-- The listing loop `for (i = 0; i < min(numMatches, (int)matches.size()); i++)`
that prints `matches[i]`; the result is the sequence of printed records. -/
def listTop {K : Type} (results : List (ImageMatch K)) (numMatches : Int) :
    Except Fault (List (ImageMatch K)) :=
  (intRange 0 (min numMatches (results.length : Int))).foldlM
    (fun out i =>
      match vecAt? results i with
      | Except.error e => Except.error e
      | Except.ok m => Except.ok (out ++ [m]))
    []

/-- The ranking stage: `sort(matches.begin(), matches.end())` followed by the
listing of the top `numMatches` records. -/
def rankStage {K : Type} (sort : List (ImageMatch K) → List (ImageMatch K))
    (results : List (ImageMatch K)) (numMatches : Int) : Except Fault (List (ImageMatch K)) :=
  listTop (sort results) numMatches

/-- Insertion of a record in front of the first record that is not smaller. -/
def insertFront {K : Type} [LinearOrderedField K] (x : ImageMatch K) :
    List (ImageMatch K) → List (ImageMatch K)
  | [] => [x]
  | y :: ys => if y < x then y :: insertFront x ys else x :: y :: ys

/-- An insertion sort that meets `StdSortSpec`; a record is placed in front of
the records of equal distance that were placed before it.  It is not the sort
of a particular standard library: it instantiates `StdSortSpec` where the
listing does not depend on the order of records of equal distance. -/
def frontInsertionSort {K : Type} [LinearOrderedField K] (l : List (ImageMatch K)) :
    List (ImageMatch K) :=
  l.foldl (fun acc x => insertFront x acc) []

/-! ## baseline_match.cpp -/

namespace BaselineMatch

/-- The function `computeSSD`: sum of squared differences, `-1` on a size mismatch. -/
def computeSSD {K : Type} [LinearOrderedField K] (feat1 feat2 : List K) : K :=
  if feat1.length ≠ feat2.length then -1
  else (feat1.zip feat2).foldl (fun ssd p => ssd + (p.1 - p.2) * (p.1 - p.2)) 0

/-- The body of the loop of `extractCenterSquare`: three `push_back`s per pixel. -/
def centerLoopBody {K : Type} [LinearOrderedField K] (image : Mat Vec3b)
    (features : List K) (i j : Int) : Except Fault (List K) :=
  match image.at? i j with
  | Except.error e => Except.error e
  | Except.ok pixel =>
    Except.ok (features ++ [(pixel.c0.val : K), (pixel.c1.val : K), (pixel.c2.val : K)])

/-- The function `extractCenterSquare`: the 7x7 block around the centre, three
channel values per pixel. -/
def extractCenterSquare {K : Type} [LinearOrderedField K] (image : Mat Vec3b) :
    Except Fault (List K) :=
  let centerY : Int := (image.rows : Int) / 2
  let centerX : Int := (image.cols : Int) / 2
  let halfSize : Int := 3
  forGrid (centerY - halfSize) (centerY + halfSize + 1)
    (centerX - halfSize) (centerX + halfSize + 1) (centerLoopBody image) []

/-- The corpus loop of `main`: for every image of the directory that loads,
extract the features, compute the distance to the target and `push_back` the
record.  `corpus` lists the loaded images in `readdir` order. -/
def collectMatches {K : Type} [LinearOrderedField K] (targetFeatures : List K)
    (corpus : List (String × Mat Vec3b)) : Except Fault (List (ImageMatch K)) :=
  corpus.foldlM
    (fun results e =>
      match extractCenterSquare e.2 with
      | Except.error err => Except.error err
      | Except.ok features =>
        Except.ok (results ++
          [{ filename := e.1, distance := computeSSD targetFeatures features }]))
    []

/-- The program `baseline_match` after argument parsing and image loading. -/
def main {K : Type} [LinearOrderedField K]
    (sort : List (ImageMatch K) → List (ImageMatch K)) (targetImage : Mat Vec3b)
    (corpus : List (String × Mat Vec3b)) (numMatches : Int) :
    Except Fault (List (ImageMatch K)) :=
  match extractCenterSquare targetImage with
  | Except.error err => Except.error err
  | Except.ok targetFeatures =>
    match collectMatches targetFeatures corpus with
    | Except.error err => Except.error err
    | Except.ok results => rankStage sort results numMatches

end BaselineMatch

/-! ## histogram_match.cpp -/

namespace HistogramMatch

/-- The function `histogramIntersection`: `1 - Σ min`, `-1` on a size mismatch. -/
def histogramIntersection {K : Type} [LinearOrderedField K] (hist1 hist2 : List K) : K :=
  if hist1.length ≠ hist2.length then -1
  else 1 - (hist1.zip hist2).foldl (fun intersection p => intersection + min p.1 p.2) 0

/-- The body of the pixel loop of `computeRGHistogram`, on the pair
`(histogram, totalPixels)`; a pixel with intensity below 1 is skipped. -/
def rgLoopBody {K : Type} [LinearOrderedField K] [FloorRing K]
    (image : Mat Vec3b) (bins : Nat) (s : List K × Int) (i j : Int) :
    Except Fault (List K × Int) :=
  match image.at? i j with
  | Except.error e => Except.error e
  | Except.ok pixel =>
    let b : K := (pixel.c0.val : K)
    let g : K := (pixel.c1.val : K)
    let r : K := (pixel.c2.val : K)
    let intensity := r + g + b
    if intensity < 1 then Except.ok s
    else
      let r_chrom := r / intensity
      let g_chrom := g / intensity
      let r_bin : Int := toInt (r_chrom * (bins : K))
      let g_bin : Int := toInt (g_chrom * (bins : K))
      let r_bin : Int := if r_bin ≥ bins then (bins : Int) - 1 else r_bin
      let g_bin : Int := if g_bin ≥ bins then (bins : Int) - 1 else g_bin
      let binIndex := r_bin * bins + g_bin
      match increment s.1 binIndex with
      | Except.error e => Except.error e
      | Except.ok histogram => Except.ok (histogram, s.2 + 1)

/-- The function `computeRGHistogram`: the rg-chromaticity histogram with
`bins * bins` cells, every cell divided by the number of pixels counted. -/
def computeRGHistogram {K : Type} [LinearOrderedField K] [FloorRing K]
    (image : Mat Vec3b) (bins : Nat) : Except Fault (List K) :=
  match forGrid 0 image.rows 0 image.cols (rgLoopBody image bins)
      (List.replicate (bins * bins) 0, 0) with
  | Except.error e => Except.error e
  | Except.ok s => divideAll s.1 ((s.2 : Int) : K)

/-- The corpus loop of `main`: histogram of every loaded image (16 bins per
axis), its intersection distance to the target histogram, `push_back`. -/
def collectMatches {K : Type} [LinearOrderedField K] [FloorRing K] (targetHist : List K)
    (corpus : List (String × Mat Vec3b)) : Except Fault (List (ImageMatch K)) :=
  corpus.foldlM
    (fun results e =>
      match computeRGHistogram e.2 16 with
      | Except.error err => Except.error err
      | Except.ok hist =>
        Except.ok (results ++
          [{ filename := e.1, distance := histogramIntersection targetHist hist }]))
    []

/-- The program `histogram_match` after argument parsing and image loading. -/
def main {K : Type} [LinearOrderedField K] [FloorRing K]
    (sort : List (ImageMatch K) → List (ImageMatch K)) (targetImage : Mat Vec3b)
    (corpus : List (String × Mat Vec3b)) (numMatches : Int) :
    Except Fault (List (ImageMatch K)) :=
  match computeRGHistogram targetImage 16 with
  | Except.error err => Except.error err
  | Except.ok targetHist =>
    match collectMatches targetHist corpus with
    | Except.error err => Except.error err
    | Except.ok results => rankStage sort results numMatches

end HistogramMatch

/-! ## multi_histogram_match.cpp -/

namespace MultiHistogramMatch

/-- The function `histogramIntersection` of `multi_histogram_match.cpp`: the
intersection itself, `0` on a size mismatch. -/
def histogramIntersection {K : Type} [LinearOrderedField K] (hist1 hist2 : List K) : K :=
  if hist1.length ≠ hist2.length then 0
  else (hist1.zip hist2).foldl (fun intersection p => intersection + min p.1 p.2) 0

/-- The function `computeMultiHistogramDistance`: one minus the average of the
top and the bottom intersection; a histogram pair is `(top, bottom)`. -/
def computeMultiHistogramDistance {K : Type} [LinearOrderedField K]
    (hist1 hist2 : List K × List K) : K :=
  let topIntersection := histogramIntersection hist1.1 hist2.1
  let bottomIntersection := histogramIntersection hist1.2 hist2.2
  let avgIntersection := (topIntersection + bottomIntersection) / 2
  1 - avgIntersection

end MultiHistogramMatch

/-! ## texture_color_match.cpp -/

namespace TextureColorMatch

/-- The body of the binning loop of `computeTextureHistogram`, on the pair
`(histogram, totalPixels)`; `mag / maxVal` is not guarded in the source. -/
def textureLoopBody {K : Type} [LinearOrderedField K] [FloorRing K]
    (magnitude : Mat K) (maxVal : K) (bins : Nat) (s : List K × Int) (i j : Int) :
    Except Fault (List K × Int) :=
  match magnitude.at? i j with
  | Except.error e => Except.error e
  | Except.ok mag =>
    match fdiv mag maxVal with
    | Except.error e => Except.error e
    | Except.ok q =>
      let bin : Int := toInt (q * (bins : K))
      let bin : Int := if bin ≥ bins then (bins : Int) - 1 else bin
      match increment s.1 bin with
      | Except.error e => Except.error e
      | Except.ok histogram => Except.ok (histogram, s.2 + 1)

/-- The function `computeTextureHistogram` from the point where the gradient
magnitudes are known: `magnitude` is the `CV_32F` matrix the function fills
with `sqrt(gx * gx + gy * gy)` from the two `cv::Sobel` outputs; `cv::minMaxLoc`,
the binning loop and the normalization are as in the source. -/
def computeTextureHistogram {K : Type} [LinearOrderedField K] [FloorRing K]
    (magnitude : Mat K) (bins : Nat) : Except Fault (List K) :=
  let maxVal : K := magnitude.maxVal
  match forGrid 0 magnitude.rows 0 magnitude.cols (textureLoopBody magnitude maxVal bins)
      (List.replicate bins 0, 0) with
  | Except.error e => Except.error e
  | Except.ok s =>
    Except.ok (if s.2 > 0 then s.1.map (fun x => x / ((s.2 : Int) : K)) else s.1)

/-- The function `histogramIntersection` of `texture_color_match.cpp`: the
intersection itself, `0` on a size mismatch. -/
def histogramIntersection {K : Type} [LinearOrderedField K] (hist1 hist2 : List K) : K :=
  if hist1.length ≠ hist2.length then 0
  else (hist1.zip hist2).foldl (fun intersection p => intersection + min p.1 p.2) 0

/-- The function `computeCombinedDistance`: one minus the average of the colour
and the texture intersection. -/
def computeCombinedDistance {K : Type} [LinearOrderedField K]
    (colorHist1 textureHist1 colorHist2 textureHist2 : List K) : K :=
  let colorIntersection := histogramIntersection colorHist1 colorHist2
  let textureIntersection := histogramIntersection textureHist1 textureHist2
  let avgIntersection := (colorIntersection + textureIntersection) / 2
  1 - avgIntersection

end TextureColorMatch

/-! ## deep_embedding_match.cpp -/

namespace DeepEmbeddingMatch

/-- The function `computeL2Norm`: square root of the sum of squares. -/
def computeL2Norm {K : Type} [LinearOrderedField K] (sqrt : K → K) (vec : List K) : K :=
  sqrt (vec.foldl (fun sum x => sum + x * x) 0)

/-- The function `normalizeVector`: divide by the norm when it is positive. -/
def normalizeVector {K : Type} [LinearOrderedField K] (sqrt : K → K) (vec : List K) : List K :=
  let norm := computeL2Norm sqrt vec
  if norm > 0 then vec.map (fun x => x / norm) else vec

/-- The function `dotProduct`: `0` on a size mismatch. -/
def dotProduct {K : Type} [LinearOrderedField K] (vec1 vec2 : List K) : K :=
  if vec1.length ≠ vec2.length then 0
  else (vec1.zip vec2).foldl (fun sum p => sum + p.1 * p.2) 0

/-- The function `cosineDistance`: one minus the clamped dot product of the
normalized vectors. -/
def cosineDistance {K : Type} [LinearOrderedField K] (sqrt : K → K) (vec1 vec2 : List K) : K :=
  let norm1 := normalizeVector sqrt vec1
  let norm2 := normalizeVector sqrt vec2
  let cosTheta := dotProduct norm1 norm2
  let cosTheta := if cosTheta > 1 then 1 else cosTheta
  let cosTheta := if cosTheta < -1 then -1 else cosTheta
  1 - cosTheta

/-- The function `sumSquaredDistance`: as `computeSSD`, on embeddings. -/
def sumSquaredDistance {K : Type} [LinearOrderedField K] (vec1 vec2 : List K) : K :=
  if vec1.length ≠ vec2.length then -1
  else (vec1.zip vec2).foldl (fun ssd p => ssd + (p.1 - p.2) * (p.1 - p.2)) 0

/-- The program `deep_embedding_match` after the CSV file is read: `database`
holds one `(filename, embedding)` pair per CSV row.  The target is the first
row whose name equals `targetImageName`; without one the program stops. -/
def main {K : Type} [LinearOrderedField K] (sqrt : K → K)
    (sort : List (ImageMatch K) → List (ImageMatch K)) (targetImageName : String)
    (database : List (String × List K)) (numMatches : Int) :
    Except Fault (List (ImageMatch K)) :=
  match database.find? (fun e => e.1 == targetImageName) with
  | none => Except.error Fault.targetNotFound
  | some target =>
    rankStage sort (distanceStage (cosineDistance sqrt) target.2 database) numMatches

end DeepEmbeddingMatch

/-! ## custom_sunset_match.cpp -/

namespace CustomSunsetMatch

/-- The function `normalizeVector` of `custom_sunset_match.cpp`: the norm is
accumulated in place, then the vector is divided by it when it is positive. -/
def normalizeVector {K : Type} [LinearOrderedField K] (sqrt : K → K) (vec : List K) : List K :=
  let norm := sqrt (vec.foldl (fun norm x => norm + x * x) 0)
  if norm > 0 then vec.map (fun x => x / norm) else vec

/-- The loop `for (i = 0; i < norm1.size(); i++) dotProd += norm1[i] * norm2[i]`
of `cosineDistance`, from index `i` on: the two arguments are what is left of
`norm1` and `norm2` from that index.  The sizes are not compared in the source,
so `norm2[i]` is read outside the vector when `norm2` is the shorter one. -/
def dotLoop {K : Type} [LinearOrderedField K] : List K → List K → K → Except Fault K
  | [], _, dotProd => Except.ok dotProd
  | _ :: _, [], _ => Except.error Fault.outOfBounds
  | x :: xs, y :: ys, dotProd => dotLoop xs ys (dotProd + x * y)

/-- The function `cosineDistance` of `custom_sunset_match.cpp`. -/
def cosineDistance {K : Type} [LinearOrderedField K] (sqrt : K → K) (vec1 vec2 : List K) :
    Except Fault K :=
  let norm1 := normalizeVector sqrt vec1
  let norm2 := normalizeVector sqrt vec2
  match dotLoop norm1 norm2 0 with
  | Except.error e => Except.error e
  | Except.ok dotProd =>
    let dotProd := if dotProd > 1 then 1 else dotProd
    let dotProd := if dotProd < -1 then -1 else dotProd
    Except.ok (1 - dotProd)

/-- The body of the two averaging loops of `computeVerticalGradient`, on the
tuple `(R, G, B, count)` of channel sums and pixel count. -/
def sumLoopBody {K : Type} [LinearOrderedField K] (image : Mat Vec3b)
    (s : K × K × K × Int) (i j : Int) : Except Fault (K × K × K × Int) :=
  match image.at? i j with
  | Except.error e => Except.error e
  | Except.ok pixel =>
    Except.ok (s.1 + (pixel.c2.val : K), s.2.1 + (pixel.c1.val : K),
      s.2.2.1 + (pixel.c0.val : K), s.2.2.2 + 1)

/-- The three statements `R /= count; G /= count; B /= count;`; the source does
not guard the divisor. -/
def divideSums {K : Type} [LinearOrderedField K] (s : K × K × K × Int) :
    Except Fault (K × K × K) :=
  match fdiv s.1 ((s.2.2.2 : Int) : K) with
  | Except.error e => Except.error e
  | Except.ok r =>
    match fdiv s.2.1 ((s.2.2.2 : Int) : K) with
    | Except.error e => Except.error e
    | Except.ok g =>
      match fdiv s.2.2.1 ((s.2.2.2 : Int) : K) with
      | Except.error e => Except.error e
      | Except.ok b => Except.ok (r, g, b)

/-- The function `computeVerticalGradient`: mean red and green of the top third
minus those of the bottom third, green weighted by one half. -/
def computeVerticalGradient {K : Type} [LinearOrderedField K] (image : Mat Vec3b) :
    Except Fault K :=
  let topStart : Int := 0
  let topEnd : Int := (image.rows : Int) / 3
  let bottomStart : Int := (2 * (image.rows : Int)) / 3
  let bottomEnd : Int := (image.rows : Int)
  match forGrid topStart topEnd 0 image.cols (sumLoopBody image) (0, 0, 0, 0) with
  | Except.error e => Except.error e
  | Except.ok topSums =>
    match divideSums topSums with
    | Except.error e => Except.error e
    | Except.ok top =>
      match forGrid bottomStart bottomEnd 0 image.cols (sumLoopBody image) (0, 0, 0, 0) with
      | Except.error e => Except.error e
      | Except.ok bottomSums =>
        match divideSums bottomSums with
        | Except.error e => Except.error e
        | Except.ok bottom =>
          Except.ok ((top.1 - bottom.1) + (top.2.1 - bottom.2.1) * 0.5)

/-- The function `computeSunsetDistance`: the weighted combination of the warm,
gradient, edge and embedding differences. -/
def computeSunsetDistance {K : Type} [LinearOrderedField K] (sqrt : K → K)
    (warmScore1 gradient1 edgeDensity1 : K) (dnn1 : List K)
    (warmScore2 gradient2 edgeDensity2 : K) (dnn2 : List K) : Except Fault K :=
  let warmDiff := |warmScore1 - warmScore2|
  let gradDiff := |gradient1 - gradient2|
  let edgeDiff := |edgeDensity1 - edgeDensity2|
  match cosineDistance sqrt dnn1 dnn2 with
  | Except.error e => Except.error e
  | Except.ok dnnDist =>
    Except.ok (0.40 * warmDiff + 0.20 * (gradDiff / 50.0) + 0.10 * edgeDiff + 0.30 * dnnDist)

/-- The embedding lookup that `main` performs for the target and for every
corpus image: the embedding of the first table row whose name equals `name`,
and, when the vector is then still empty, `resize(512, 0.0)`. -/
def lookupEmbedding {K : Type} [LinearOrderedField K] (table : List (String × List K))
    (name : String) : List K :=
  let dnn : List K :=
    match table.find? (fun e => e.1 == name) with
    | some e => e.2
    | none => []
  if dnn.isEmpty then List.replicate 512 0 else dnn

/-- The record `struct ImageFeatures`. -/
structure ImageFeatures (K : Type) where
  filename : String
  warmScore : K
  gradient : K
  edgeDensity : K
  dnnEmbedding : List K
  distance : K

/-- The guarantee of `std::sort` on a vector of `ImageFeatures`, whose
`operator<` compares the distances. -/
def SortSpec {K : Type} [LinearOrderedField K]
    (sort : List (ImageFeatures K) → List (ImageFeatures K)) : Prop :=
  ∀ l, (sort l).Perm l ∧ (sort l).Pairwise (fun a b => ¬ b.distance < a.distance)

/-- A listing loop `for (i = lo; i < hi; i++)` that prints `results[i]`. -/
def listRange {K : Type} (results : List (ImageFeatures K)) (lo hi : Int) :
    Except Fault (List (ImageFeatures K)) :=
  (intRange lo hi).foldlM
    (fun out i =>
      match vecAt? results i with
      | Except.error e => Except.error e
      | Except.ok m => Except.ok (out ++ [m]))
    []

/-- The end of `main`: `sort(results.begin(), results.end())`, the listing of
the top `numMatches` records and the listing headed "Least Similar Images
(Bottom 5)", which starts at `max(0, (int)results.size() - 5)`.  The result is
the pair of the two listings. -/
def rankStage {K : Type} (sort : List (ImageFeatures K) → List (ImageFeatures K))
    (results : List (ImageFeatures K)) (numMatches : Int) :
    Except Fault (List (ImageFeatures K) × List (ImageFeatures K)) :=
  let results := sort results
  match listRange results 0 (min numMatches (results.length : Int)) with
  | Except.error e => Except.error e
  | Except.ok top =>
    let start : Int := max 0 ((results.length : Int) - 5)
    match listRange results start (results.length : Int) with
    | Except.error e => Except.error e
    | Except.ok bottom => Except.ok (top, bottom)

/-- A sort of `ImageFeatures` by distance that meets `SortSpec`. -/
def distanceSort {K : Type} [LinearOrderedField K] (l : List (ImageFeatures K)) :
    List (ImageFeatures K) :=
  l.insertionSort (fun a b => a.distance ≤ b.distance)

end CustomSunsetMatch

/-- The square root of `<cmath>` in exact arithmetic. -/
def IsExactSqrt {K : Type} [LinearOrderedField K] (sqrt : K → K) : Prop :=
  ∀ x, 0 ≤ x → 0 ≤ sqrt x ∧ sqrt x * sqrt x = x

/-- A vector is non-zero when one of its components is. -/
def NonZero {K : Type} [LinearOrderedField K] (v : List K) : Prop := ∃ x ∈ v, x ≠ 0

/-- A 2x2 image whose pixels are all black. -/
def blackImage : Mat Vec3b := { rows := 2, cols := 2, data := fun _ _ => ⟨0, 0, 0⟩ }

/-- The gradient magnitudes of a 10x10 uniform image: all zero. -/
def uniformMagnitude : Mat ℚ := { rows := 10, cols := 10, data := fun _ _ => 0 }

/-- The corpus of the three-entry scenario. -/
def scenarioCorpus : List (String × List ℚ) :=
  [("entry_at_[0,0]", [0, 0]), ("entry_at_[1,0]", [1, 0]), ("entry_at_[0,1]", [0, 1])]

/-- The query descriptor of the three-entry scenario. -/
def scenarioQuery : List ℚ := [1, 0]

/-- A 7x7 image of one colour. -/
def sevenImage : Mat Vec3b := { rows := 7, cols := 7, data := fun _ _ => ⟨10, 20, 30⟩ }

/-- A corpus that holds the 7x7 image twice under two names. -/
def sevenCorpus : List (String × Mat Vec3b) := [("b.jpg", sevenImage), ("a.jpg", sevenImage)]

/-- The fused histogram distance as the specification words it: the average of
two independent histogram-intersection distances `1 - Σ min`, one per
sub-histogram pair. -/
def fusedHistogramDistanceSpec {K : Type} [LinearOrderedField K] (a1 a2 b1 b2 : List K) : K :=
  ((1 - (List.zipWith min a1 a2).sum) + (1 - (List.zipWith min b1 b2).sum)) / 2

/-- A 3x3 image of one colour. -/
def tinyImage : Mat Vec3b := { rows := 3, cols := 3, data := fun _ _ => ⟨10, 20, 30⟩ }

/-- An embedding table whose second row is longer than the first. -/
def mismatchDatabase : List (String × List ℝ) := [("t.jpg", [1, 0]), ("u.jpg", [1, 0, 0])]

/-- An embedding table with a single row. -/
def oneRowTable : List (String × List ℚ) := [("a.jpg", [1, 2])]

/-- Three scored images, in enumeration order. -/
def sunsetResults : List (CustomSunsetMatch.ImageFeatures ℚ) :=
  [{ filename := "a.jpg", warmScore := 0, gradient := 0, edgeDensity := 0, dnnEmbedding := [],
      distance := 2 },
    { filename := "b.jpg", warmScore := 0, gradient := 0, edgeDensity := 0, dnnEmbedding := [],
      distance := 1 },
    { filename := "c.jpg", warmScore := 0, gradient := 0, edgeDensity := 0, dnnEmbedding := [],
      distance := 3 }]

/-- A 3x1 image: a bright yellow top pixel over two black pixels. -/
def warmTopImage : Mat Vec3b :=
  { rows := 3, cols := 1, data := fun i _ => if i = 0 then ⟨0, 255, 255⟩ else ⟨0, 0, 0⟩ }

/-- A 3x1 image: two black pixels over a bright yellow bottom pixel. -/
def warmBottomImage : Mat Vec3b :=
  { rows := 3, cols := 1, data := fun i _ => if i = 2 then ⟨0, 255, 255⟩ else ⟨0, 0, 0⟩ }

namespace LibStdCxx

/-- The call `std::iter_swap(i, j)`. -/
def iter_swap {α : Type} (v : List α) (i j : Nat) : Option (List α) :=
  match v[i]?, v[j]? with
  | some x, some y => some ((v.set i y).set j x)
  | _, _ => none

/-- The function `std::__move_median_to_first(result, a, b, c, comp)`. -/
def move_median_to_first {α : Type} (comp : α → α → Bool) (v : List α) (result a b c : Nat) :
    Option (List α) :=
  match v[a]?, v[b]?, v[c]? with
  | some va, some vb, some vc =>
    if comp va vb then
      if comp vb vc then iter_swap v result b
      else if comp va vc then iter_swap v result c
      else iter_swap v result a
    else if comp va vc then iter_swap v result a
    else if comp vb vc then iter_swap v result c
    else iter_swap v result b
  | _, _, _ => none

/-- The loop `while (comp(first, pivot)) ++first;` of `__unguarded_partition`. -/
def scanUp {α : Type} (comp : α → α → Bool) (v : List α) (pivot : Nat) :
    Nat → Nat → Option Nat
  | 0, _ => none
  | fuel + 1, first =>
    match v[first]?, v[pivot]? with
    | some x, some p => if comp x p then scanUp comp v pivot fuel (first + 1) else some first
    | _, _ => none

/-- The loop `while (comp(pivot, last)) --last;` of `__unguarded_partition`. -/
def scanDown {α : Type} (comp : α → α → Bool) (v : List α) (pivot : Nat) :
    Nat → Nat → Option Nat
  | 0, _ => none
  | fuel + 1, last =>
    match v[pivot]?, v[last]? with
    | some p, some x =>
      if comp p x then
        if last = 0 then none else scanDown comp v pivot fuel (last - 1)
      else some last
    | _, _ => none

/-- The function `std::__unguarded_partition(first, last, pivot, comp)`; the
result is the vector and the returned iterator. -/
def unguarded_partition {α : Type} (comp : α → α → Bool) (pivot : Nat) :
    Nat → List α → Nat → Nat → Option (List α × Nat)
  | 0, _, _, _ => none
  | fuel + 1, v, first, last =>
    match scanUp comp v pivot (v.length + 1) first with
    | none => none
    | some first =>
      if last = 0 then none
      else
        match scanDown comp v pivot (v.length + 1) (last - 1) with
        | none => none
        | some last =>
          if ¬ (first < last) then some (v, first)
          else
            match iter_swap v first last with
            | none => none
            | some v => unguarded_partition comp pivot fuel v (first + 1) last

/-- The function `std::__unguarded_partition_pivot(first, last, comp)`. -/
def unguarded_partition_pivot {α : Type} (comp : α → α → Bool) (v : List α) (first last : Nat) :
    Option (List α × Nat) :=
  let mid := first + (last - first) / 2
  match move_median_to_first comp v first (first + 1) mid (last - 1) with
  | none => none
  | some v => unguarded_partition comp first (v.length + 1) v (first + 1) last

/-- The assignment `*(first + i) = x` through an iterator of the vector. -/
def assign {α : Type} (v : List α) (i : Nat) (x : α) : Option (List α) :=
  if i < v.length then some (v.set i x) else none

/-- The function `std::__push_heap(first, holeIndex, topIndex, value, comp)` of
`bits/stl_heap.h`. -/
def push_heap {α : Type} (comp : α → α → Bool) (first topIndex : Nat) (value : α) :
    Nat → List α → Nat → Option (List α)
  | 0, _, _ => none
  | fuel + 1, v, holeIndex =>
    let parent := (holeIndex - 1) / 2
    if holeIndex > topIndex then
      match v[first + parent]? with
      | none => none
      | some p =>
        if comp p value then
          match assign v (first + holeIndex) p with
          | none => none
          | some v => push_heap comp first topIndex value fuel v parent
        else assign v (first + holeIndex) value
    else assign v (first + holeIndex) value

/-- The loop `while (secondChild < (len - 1) / 2)` of `std::__adjust_heap`; the
result is the vector, `holeIndex` and `secondChild`. -/
def siftDown {α : Type} (comp : α → α → Bool) (first len : Nat) :
    Nat → List α → Nat → Nat → Option (List α × Nat × Nat)
  | 0, _, _, _ => none
  | fuel + 1, v, holeIndex, secondChild =>
    if secondChild < (len - 1) / 2 then
      let secondChild := 2 * (secondChild + 1)
      match v[first + secondChild]?, v[first + (secondChild - 1)]? with
      | some x, some y =>
        let secondChild := if comp x y then secondChild - 1 else secondChild
        match v[first + secondChild]? with
        | none => none
        | some child =>
          match assign v (first + holeIndex) child with
          | none => none
          | some v => siftDown comp first len fuel v secondChild secondChild
      | _, _ => none
    else some (v, holeIndex, secondChild)

/-- The function `std::__adjust_heap(first, holeIndex, len, value, comp)`.  The
test `secondChild == (len - 2) / 2` is on signed integers, so it fails for
`len < 2`. -/
def adjust_heap {α : Type} (comp : α → α → Bool) (v : List α) (first holeIndex len : Nat)
    (value : α) : Option (List α) :=
  let topIndex := holeIndex
  match siftDown comp first len (len + 1) v holeIndex holeIndex with
  | none => none
  | some (v, holeIndex, secondChild) =>
    if len % 2 = 0 ∧ 2 ≤ len ∧ secondChild = (len - 2) / 2 then
      let secondChild := 2 * (secondChild + 1)
      match v[first + (secondChild - 1)]? with
      | none => none
      | some child =>
        match assign v (first + holeIndex) child with
        | none => none
        | some v => push_heap comp first topIndex value (len + 1) v (secondChild - 1)
    else push_heap comp first topIndex value (len + 1) v holeIndex

/-- The function `std::__pop_heap(first, last, result, comp)`. -/
def pop_heap {α : Type} (comp : α → α → Bool) (v : List α) (first last result : Nat) :
    Option (List α) :=
  match v[result]?, v[first]? with
  | some value, some top =>
    match assign v result top with
    | none => none
    | some v => adjust_heap comp v first 0 (last - first) value
  | _, _ => none

/-- The loop of `std::__make_heap`, from `parent` down to 0. -/
def makeHeapLoop {α : Type} (comp : α → α → Bool) (first len : Nat) :
    Nat → List α → Option (List α)
  | 0, v =>
    match v[first]? with
    | none => none
    | some value => adjust_heap comp v first 0 len value
  | parent + 1, v =>
    match v[first + (parent + 1)]? with
    | none => none
    | some value =>
      match adjust_heap comp v first (parent + 1) len value with
      | none => none
      | some v => makeHeapLoop comp first len parent v

/-- The function `std::__make_heap(first, last, comp)`. -/
def make_heap {α : Type} (comp : α → α → Bool) (v : List α) (first last : Nat) :
    Option (List α) :=
  if last - first < 2 then some v
  else makeHeapLoop comp first (last - first) ((last - first - 2) / 2) v

/-- The function `std::__sort_heap(first, last, comp)`. -/
def sort_heap {α : Type} (comp : α → α → Bool) (first : Nat) : Nat → List α → Option (List α)
  | 0, v => some v
  | last + 1, v =>
    if last + 1 - first > 1 then
      match pop_heap comp v first last last with
      | none => none
      | some v => sort_heap comp first last v
    else some v

/-- The function `std::__heap_select(first, middle, last, comp)`. -/
def heap_select {α : Type} (comp : α → α → Bool) (v : List α) (first middle last : Nat) :
    Option (List α) :=
  match make_heap comp v first middle with
  | none => none
  | some v =>
    (List.range' middle (last - middle)).foldlM
      (fun v i =>
        match v[i]?, v[first]? with
        | some x, some top => if comp x top then pop_heap comp v first middle i else some v
        | _, _ => none)
      v

/-- The function `std::__introsort_loop(first, last, depth_limit, comp)`; at
`depth_limit == 0` it calls `std::__partial_sort(first, last, last, comp)`,
which is `__heap_select` followed by `__sort_heap`. -/
def introsort_loop {α : Type} (comp : α → α → Bool) :
    Nat → List α → Nat → Nat → Nat → Option (List α)
  | 0, _, _, _, _ => none
  | fuel + 1, v, first, last, depthLimit =>
    if last - first > 16 then
      if depthLimit = 0 then
        match heap_select comp v first last last with
        | none => none
        | some v => sort_heap comp first last v
      else
        match unguarded_partition_pivot comp v first last with
        | none => none
        | some (v, cut) =>
          match introsort_loop comp fuel v cut last (depthLimit - 1) with
          | none => none
          | some v => introsort_loop comp fuel v first cut (depthLimit - 1)
    else some v

/-- The loop of `std::__unguarded_linear_insert`: `val` is the value taken out
of the vector, `last` the index of the hole. -/
def linearInsertLoop {α : Type} (comp : α → α → Bool) (val : α) :
    Nat → List α → Nat → Option (List α)
  | 0, _, _ => none
  | fuel + 1, v, last =>
    if last = 0 then none
    else
      match v[last - 1]? with
      | none => none
      | some next =>
        if comp val next then linearInsertLoop comp val fuel (v.set last next) (last - 1)
        else some (v.set last val)

/-- The function `std::__unguarded_linear_insert(last, comp)`. -/
def unguarded_linear_insert {α : Type} (comp : α → α → Bool) (v : List α) (last : Nat) :
    Option (List α) :=
  match v[last]? with
  | none => none
  | some val => linearInsertLoop comp val (v.length + 1) v last

/-- The body of the loop of `std::__insertion_sort` for the iterator `i`. -/
def insertionStep {α : Type} (comp : α → α → Bool) (first : Nat) (v : List α) (i : Nat) :
    Option (List α) :=
  match v[i]?, v[first]? with
  | some val, some head =>
    if comp val head then
      some (v.take first ++ val :: ((v.drop first).take (i - first) ++ v.drop (i + 1)))
    else unguarded_linear_insert comp v i
  | _, _ => none

/-- The function `std::__insertion_sort(first, last, comp)`. -/
def insertion_sort {α : Type} (comp : α → α → Bool) (v : List α) (first last : Nat) :
    Option (List α) :=
  if first = last then some v
  else
    (List.range' (first + 1) (last - (first + 1))).foldlM
      (fun v i => insertionStep comp first v i) v

/-- The function `std::__unguarded_insertion_sort(first, last, comp)`. -/
def unguarded_insertion_sort {α : Type} (comp : α → α → Bool) (v : List α) (first last : Nat) :
    Option (List α) :=
  (List.range' first (last - first)).foldlM (fun v i => unguarded_linear_insert comp v i) v

/-- The function `std::__final_insertion_sort(first, last, comp)`. -/
def final_insertion_sort {α : Type} (comp : α → α → Bool) (v : List α) (first last : Nat) :
    Option (List α) :=
  if last - first > 16 then
    match insertion_sort comp v first (first + 16) with
    | none => none
    | some v => unguarded_insertion_sort comp v (first + 16) last
  else insertion_sort comp v first last

/-- The function `std::__lg(n)`: the floor of the binary logarithm. -/
def lg : Nat → Nat → Nat
  | 0, _ => 0
  | fuel + 1, n => if n < 2 then 0 else lg fuel (n / 2) + 1

/-- The function `std::sort(v.begin(), v.end())` of libstdc++ (`std::__sort`):
introsort down to runs of at most 16 elements, then insertion sort. -/
def sort {α : Type} (comp : α → α → Bool) (v : List α) : Option (List α) :=
  if v.length = 0 then some v
  else
    match introsort_loop comp (v.length + 1) v 0 v.length (lg v.length v.length * 2) with
    | none => none
    | some v => final_insertion_sort comp v 0 v.length

end LibStdCxx

/-- The statement `sort(matches.begin(), matches.end())` with the `std::sort` of
libstdc++ and `ImageMatch::operator<`.  Where `LibStdCxx.sort` gives `none` the
vector is returned as it is. -/
def libstdcxxSort {K : Type} [LinearOrderedField K] (results : List (ImageMatch K)) :
    List (ImageMatch K) :=
  (LibStdCxx.sort (fun a b => decide (a < b)) results).getD results

/-- A CSV table of seventeen rows that all carry the embedding `[1, 0]`. -/
def tieDatabase : List (String × List ℚ) :=
  [("r00", [1, 0]), ("r01", [1, 0]), ("r02", [1, 0]), ("r03", [1, 0]), ("r04", [1, 0]),
    ("r05", [1, 0]), ("r06", [1, 0]), ("r07", [1, 0]), ("r08", [1, 0]), ("r09", [1, 0]),
    ("r10", [1, 0]), ("r11", [1, 0]), ("r12", [1, 0]), ("r13", [1, 0]), ("r14", [1, 0]),
    ("r15", [1, 0]), ("r16", [1, 0])]

/-- The records that the distance loop of `deep_embedding_match` builds from
`tieDatabase` for the target `r00`: seventeen results at distance 0, in the
order of the CSV rows. -/
def tieResults : List (ImageMatch ℚ) :=
  [⟨"r00", 0⟩, ⟨"r01", 0⟩, ⟨"r02", 0⟩, ⟨"r03", 0⟩, ⟨"r04", 0⟩, ⟨"r05", 0⟩, ⟨"r06", 0⟩,
    ⟨"r07", 0⟩, ⟨"r08", 0⟩, ⟨"r09", 0⟩, ⟨"r10", 0⟩, ⟨"r11", 0⟩, ⟨"r12", 0⟩, ⟨"r13", 0⟩,
    ⟨"r14", 0⟩, ⟨"r15", 0⟩, ⟨"r16", 0⟩]

/-- The order in which the `std::sort` of libstdc++ leaves `tieResults`. -/
def tieRanking : List (ImageMatch ℚ) :=
  [⟨"r08", 0⟩, ⟨"r16", 0⟩, ⟨"r15", 0⟩, ⟨"r14", 0⟩, ⟨"r13", 0⟩, ⟨"r12", 0⟩, ⟨"r11", 0⟩,
    ⟨"r10", 0⟩, ⟨"r09", 0⟩, ⟨"r00", 0⟩, ⟨"r07", 0⟩, ⟨"r06", 0⟩, ⟨"r05", 0⟩, ⟨"r04", 0⟩,
    ⟨"r03", 0⟩, ⟨"r02", 0⟩, ⟨"r01", 0⟩]

/-- The scenario corpus in another enumeration order. -/
def scenarioCorpusReordered : List (String × List ℚ) :=
  [("entry_at_[0,1]", [0, 1]), ("entry_at_[0,0]", [0, 0]), ("entry_at_[1,0]", [1, 0])]

/-! ## Lemmas -/

theorem foldl_add_eq_sum {K α : Type} [LinearOrderedField K] (f : α → K) (l : List α) (a : K) :
    l.foldl (fun s p => s + f p) a = a + (l.map f).sum := by
  induction l generalizing a with
  | nil => simp
  | cons x xs ih => simp [ih, add_assoc]

theorem sum_sq_zip_comm {K : Type} [LinearOrderedField K] (a b : List K) :
    ((a.zip b).map (fun p => (p.1 - p.2) * (p.1 - p.2))).sum
      = ((b.zip a).map (fun p => (p.1 - p.2) * (p.1 - p.2))).sum := by
  induction a generalizing b with
  | nil => simp
  | cons x xs ih =>
    cases b with
    | nil => simp
    | cons y ys =>
      simp only [List.zip_cons_cons, List.map_cons, List.sum_cons, ih ys]
      ring

theorem sum_min_zip_self {K : Type} [LinearOrderedField K] (h : List K) :
    ((h.zip h).map (fun p => min p.1 p.2)).sum = h.sum := by
  induction h with
  | nil => simp
  | cons x xs ih => simp [ih]

theorem histIntersection_self_eq {K : Type} [LinearOrderedField K] (h : List K) :
    HistogramMatch.histogramIntersection h h = 1 - h.sum := by
  unfold HistogramMatch.histogramIntersection
  simp [foldl_add_eq_sum, sum_min_zip_self]

theorem sum_sq_nonneg {K : Type} [LinearOrderedField K] (v : List K) :
    0 ≤ (v.map (fun x => x * x)).sum := by
  induction v with
  | nil => simp
  | cons x xs ih =>
    simp only [List.map_cons, List.sum_cons]
    exact add_nonneg (mul_self_nonneg x) ih

theorem sum_sq_pos {K : Type} [LinearOrderedField K] (v : List K) (hv : NonZero v) :
    0 < (v.map (fun x => x * x)).sum := by
  induction v with
  | nil => obtain ⟨x, hx, _⟩ := hv; simp at hx
  | cons y ys ih =>
    simp only [List.map_cons, List.sum_cons]
    obtain ⟨x, hx, hx0⟩ := hv
    rcases List.mem_cons.mp hx with rfl | hmem
    · exact add_pos_of_pos_of_nonneg (mul_self_pos.mpr hx0) (sum_sq_nonneg ys)
    · exact add_pos_of_nonneg_of_pos (mul_self_nonneg y) (ih ⟨x, hmem, hx0⟩)

theorem sum_sq_neg {K : Type} [LinearOrderedField K] (v : List K) :
    ((v.map (fun x => -x)).map (fun x => x * x)).sum = (v.map (fun x => x * x)).sum := by
  simp [List.map_map, Function.comp_def]

theorem sum_map_div_mul_div {K : Type} [LinearOrderedField K] (v : List K) (n c : K) :
    (v.map (fun x => (x / n) * (c * x / n))).sum = c * (v.map (fun x => x * x)).sum / (n * n) := by
  induction v with
  | nil => simp
  | cons x xs ih =>
    simp only [List.map_cons, List.sum_cons, ih]
    ring

theorem computeL2Norm_pos {K : Type} [LinearOrderedField K] (sqrt : K → K)
    (hsqrt : IsExactSqrt sqrt) (v : List K) (hv : NonZero v) :
    0 < DeepEmbeddingMatch.computeL2Norm sqrt v ∧
      DeepEmbeddingMatch.computeL2Norm sqrt v * DeepEmbeddingMatch.computeL2Norm sqrt v
        = (v.map (fun x => x * x)).sum := by
  unfold DeepEmbeddingMatch.computeL2Norm
  rw [foldl_add_eq_sum, zero_add]
  have hpos := sum_sq_pos v hv
  obtain ⟨h0, hsq⟩ := hsqrt _ hpos.le
  refine ⟨lt_of_le_of_ne h0 ?_, hsq⟩
  intro hz
  rw [← hz] at hsq
  simp at hsq
  linarith

theorem computeL2Norm_neg {K : Type} [LinearOrderedField K] (sqrt : K → K) (v : List K) :
    DeepEmbeddingMatch.computeL2Norm sqrt (v.map (fun x => -x))
      = DeepEmbeddingMatch.computeL2Norm sqrt v := by
  unfold DeepEmbeddingMatch.computeL2Norm
  rw [foldl_add_eq_sum, foldl_add_eq_sum, sum_sq_neg]

theorem cosine_self_zero {K : Type} [LinearOrderedField K] (sqrt : K → K)
    (hsqrt : IsExactSqrt sqrt) (v : List K) (hv : NonZero v) :
    DeepEmbeddingMatch.cosineDistance sqrt v v = 0 := by
  obtain ⟨hpos, hsq⟩ := computeL2Norm_pos sqrt hsqrt v hv
  have hne : DeepEmbeddingMatch.computeL2Norm sqrt v ≠ 0 := ne_of_gt hpos
  have hss : (v.map (fun x => x * x)).sum ≠ 0 := by rw [← hsq]; exact mul_ne_zero hne hne
  unfold DeepEmbeddingMatch.cosineDistance DeepEmbeddingMatch.normalizeVector
    DeepEmbeddingMatch.dotProduct
  simp only [gt_iff_lt, hpos, if_true, ne_eq, not_true_eq_false, if_false,
    foldl_add_eq_sum, zero_add, List.zip_map', List.map_map, Function.comp_def]
  have := sum_map_div_mul_div v (DeepEmbeddingMatch.computeL2Norm sqrt v) 1
  simp only [one_mul] at this
  rw [this, hsq, div_self hss]
  norm_num

theorem cosine_opposite_two {K : Type} [LinearOrderedField K] (sqrt : K → K)
    (hsqrt : IsExactSqrt sqrt) (v : List K) (hv : NonZero v) :
    DeepEmbeddingMatch.cosineDistance sqrt v (v.map (fun x => -x)) = 2 := by
  obtain ⟨hpos, hsq⟩ := computeL2Norm_pos sqrt hsqrt v hv
  have hne : DeepEmbeddingMatch.computeL2Norm sqrt v ≠ 0 := ne_of_gt hpos
  have hss : (v.map (fun x => x * x)).sum ≠ 0 := by rw [← hsq]; exact mul_ne_zero hne hne
  unfold DeepEmbeddingMatch.cosineDistance DeepEmbeddingMatch.normalizeVector
    DeepEmbeddingMatch.dotProduct
  simp only [computeL2Norm_neg, gt_iff_lt, hpos, if_true, List.length_map, ne_eq,
    not_true_eq_false, if_false, foldl_add_eq_sum, zero_add, List.map_map, List.zip_map',
    Function.comp_def]
  have := sum_map_div_mul_div v (DeepEmbeddingMatch.computeL2Norm sqrt v) (-1)
  simp only [neg_one_mul] at this
  simp only [neg_div] at this ⊢
  rw [this, hsq, div_self hss]
  norm_num

theorem real_sqrt_exact : IsExactSqrt Real.sqrt :=
  fun x hx => ⟨Real.sqrt_nonneg x, Real.mul_self_sqrt hx⟩

theorem mem_intRange (lo hi i : Int) : i ∈ intRange lo hi ↔ lo ≤ i ∧ i < hi := by
  unfold intRange
  simp only [List.mem_map, List.mem_range]
  constructor
  · rintro ⟨k, hk, rfl⟩
    have := Int.lt_toNat.mp hk
    omega
  · rintro ⟨h1, h2⟩
    refine ⟨(i - lo).toNat, ?_, ?_⟩
    · apply Int.lt_toNat.mpr
      rw [Int.toNat_of_nonneg (by omega)]
      omega
    · rw [Int.toNat_of_nonneg (by omega)]
      omega

theorem intRange_ne_nil (lo hi : Int) (h : lo < hi) : intRange lo hi ≠ [] := by
  intro hnil
  have : lo ∈ intRange lo hi := (mem_intRange lo hi lo).mpr ⟨le_refl _, h⟩
  rw [hnil] at this
  simp at this

theorem foldlM_hit {σ α : Type} (f : σ → α → Except Fault σ) (J : Prop → σ → Prop)
    (hit : α → Prop) (l : List α)
    (hstep : ∀ (c : Prop) s x, x ∈ l → J c s → ∃ s', f s x = Except.ok s' ∧ J (c ∨ hit x) s')
    (c : Prop) (s0 : σ) (h0 : J c s0) :
    ∃ s, l.foldlM f s0 = Except.ok s ∧ J (c ∨ ∃ x ∈ l, hit x) s := by
  induction l generalizing c s0 with
  | nil => exact ⟨s0, rfl, by simpa using h0⟩
  | cons x xs ih =>
    obtain ⟨s1, hs1, hJ1⟩ := hstep c s0 x (List.mem_cons_self _ _) h0
    obtain ⟨s, hs, hJ⟩ := ih (fun c s y hy => hstep c s y (List.mem_cons_of_mem _ hy)) _ s1 hJ1
    refine ⟨s, ?_, ?_⟩
    · simp only [List.foldlM_cons, hs1]
      exact hs
    · have e : ((c ∨ hit x) ∨ ∃ y ∈ xs, hit y) = (c ∨ ∃ y ∈ x :: xs, hit y) := by
        simp [or_assoc]
      rwa [e] at hJ

theorem forGrid_hit {σ : Type} (r0 r1 c0 c1 : Int) (body : σ → Int → Int → Except Fault σ)
    (J : Prop → σ → Prop) (hit : Int → Int → Prop)
    (hstep : ∀ (c : Prop) s i j, r0 ≤ i → i < r1 → c0 ≤ j → j < c1 → J c s →
      ∃ s', body s i j = Except.ok s' ∧ J (c ∨ hit i j) s')
    (c : Prop) (s0 : σ) (h0 : J c s0) :
    ∃ s, forGrid r0 r1 c0 c1 body s0 = Except.ok s ∧
      J (c ∨ ∃ i j, r0 ≤ i ∧ i < r1 ∧ c0 ≤ j ∧ j < c1 ∧ hit i j) s := by
  unfold forGrid
  obtain ⟨s, hs, hJ⟩ := foldlM_hit
    (fun s i => (intRange c0 c1).foldlM (fun s j => body s i j) s) J
    (fun i => ∃ j ∈ intRange c0 c1, hit i j) (intRange r0 r1)
    (fun c s i hi hJ => by
      obtain ⟨hi0, hi1⟩ := (mem_intRange _ _ _).mp hi
      exact foldlM_hit (fun s j => body s i j) J (fun j => hit i j) (intRange c0 c1)
        (fun c s j hj hJ => by
          obtain ⟨hj0, hj1⟩ := (mem_intRange _ _ _).mp hj
          exact hstep c s i j hi0 hi1 hj0 hj1 hJ) c s hJ)
    c s0 h0
  refine ⟨s, hs, ?_⟩
  have e : (c ∨ ∃ i ∈ intRange r0 r1, ∃ j ∈ intRange c0 c1, hit i j)
      = (c ∨ ∃ i j, r0 ≤ i ∧ i < r1 ∧ c0 ≤ j ∧ j < c1 ∧ hit i j) := by
    apply propext
    simp only [mem_intRange]
    constructor
    · rintro (h | ⟨i, ⟨a, b⟩, j, ⟨c', d⟩, h⟩)
      · exact Or.inl h
      · exact Or.inr ⟨i, j, a, b, c', d, h⟩
    · rintro (h | ⟨i, j, a, b, c', d, h⟩)
      · exact Or.inl h
      · exact Or.inr ⟨i, ⟨a, b⟩, j, ⟨c', d⟩, h⟩
  rwa [e] at hJ

theorem foldlM_error {σ α : Type} (f : σ → α → Except Fault σ) (e : Fault) (l : List α)
    (hl : l ≠ []) (hstep : ∀ s x, x ∈ l → f s x = Except.error e) (s0 : σ) :
    l.foldlM f s0 = Except.error e := by
  cases l with
  | nil => exact absurd rfl hl
  | cons x xs =>
    simp only [List.foldlM_cons, hstep s0 x (List.mem_cons_self _ _)]
    rfl

theorem forGrid_error {σ : Type} (r0 r1 c0 c1 : Int) (body : σ → Int → Int → Except Fault σ)
    (e : Fault) (hr : r0 < r1) (hc : c0 < c1)
    (hstep : ∀ s i j, r0 ≤ i → i < r1 → c0 ≤ j → j < c1 → body s i j = Except.error e)
    (s0 : σ) : forGrid r0 r1 c0 c1 body s0 = Except.error e := by
  unfold forGrid
  apply foldlM_error _ e _ (intRange_ne_nil _ _ hr)
  intro s i hi
  obtain ⟨hi0, hi1⟩ := (mem_intRange _ _ _).mp hi
  apply foldlM_error _ e _ (intRange_ne_nil _ _ hc)
  intro s j hj
  obtain ⟨hj0, hj1⟩ := (mem_intRange _ _ _).mp hj
  exact hstep s i j hi0 hi1 hj0 hj1

theorem matAt_ok {α : Type} (m : Mat α) (i j : Int) (hi0 : 0 ≤ i) (hi1 : i < m.rows)
    (hj0 : 0 ≤ j) (hj1 : j < m.cols) : m.at? i j = Except.ok (m.data i.toNat j.toNat) := by
  unfold Mat.at?
  rw [if_pos ⟨hi0, hi1, hj0, hj1⟩]

theorem insertFront_perm {K : Type} [LinearOrderedField K] (x : ImageMatch K)
    (l : List (ImageMatch K)) : (insertFront x l).Perm (x :: l) := by
  induction l with
  | nil => exact List.Perm.refl _
  | cons y ys ih =>
    unfold insertFront
    split_ifs
    · exact ((List.Perm.cons y ih).trans (List.Perm.swap x y ys))
    · exact List.Perm.refl _

theorem insertFront_sorted {K : Type} [LinearOrderedField K] (x : ImageMatch K)
    (l : List (ImageMatch K)) (hl : l.Pairwise (fun a b => ¬ b < a)) :
    (insertFront x l).Pairwise (fun a b => ¬ b < a) := by
  induction l with
  | nil => simp [insertFront]
  | cons y ys ih =>
    obtain ⟨hy, hys⟩ := List.pairwise_cons.mp hl
    unfold insertFront
    split_ifs with hlt
    · refine List.pairwise_cons.mpr ⟨?_, ih hys⟩
      intro b hb
      rcases List.mem_cons.mp ((insertFront_perm x ys).subset hb) with rfl | hb'
      · exact fun h => lt_asymm (show y.distance < b.distance from hlt) h
      · exact hy b hb'
    · refine List.pairwise_cons.mpr ⟨?_, hl⟩
      intro b hb
      have hxy : x.distance ≤ y.distance := not_lt.mp hlt
      rcases List.mem_cons.mp hb with rfl | hb'
      · exact hlt
      · have := hy b hb'
        exact fun h => this (lt_of_lt_of_le (show b.distance < x.distance from h) hxy)

theorem frontInsertionSort_spec {K : Type} [LinearOrderedField K] :
    StdSortSpec (frontInsertionSort (K := K)) := by
  have key : ∀ (l acc : List (ImageMatch K)), acc.Pairwise (fun a b => ¬ b < a) →
      (l.foldl (fun acc x => insertFront x acc) acc).Perm (l ++ acc) ∧
      (l.foldl (fun acc x => insertFront x acc) acc).Pairwise (fun a b => ¬ b < a) := by
    intro l
    induction l with
    | nil => intro acc h; exact ⟨List.Perm.refl _, h⟩
    | cons x xs ih =>
      intro acc h
      obtain ⟨hp, hs⟩ := ih (insertFront x acc) (insertFront_sorted x acc h)
      refine ⟨?_, hs⟩
      refine hp.trans ?_
      refine (List.Perm.append_left xs (insertFront_perm x acc)).trans ?_
      exact (List.perm_middle).trans (List.Perm.refl _)
  intro l
  have := key l [] List.Pairwise.nil
  simpa [frontInsertionSort] using this

theorem vecAt_ok {α : Type} (v : List α) (n : Nat) (hn : n < v.length) :
    vecAt? v (n : Int) = Except.ok (v.get ⟨n, hn⟩) := by
  unfold vecAt?
  simp [hn]

theorem listTop_aux {K : Type} (results : List (ImageMatch K)) (n : Nat)
    (hn : n ≤ results.length) :
    ((List.range n).map (fun (k : Nat) => (0 : Int) + (k : Int))).foldlM
      (fun out i =>
        match vecAt? results i with
        | Except.error e => Except.error e
        | Except.ok m => Except.ok (out ++ [m])) []
      = Except.ok (results.take n) := by
  induction n with
  | zero => rfl
  | succ k ih =>
    have hk : k < results.length := hn
    rw [List.range_succ, List.map_append, List.foldlM_append, ih (Nat.le_of_lt hk)]
    simp only [List.map_cons, List.map_nil, zero_add]
    simp only [bind, Except.bind, List.foldlM_cons, List.foldlM_nil, vecAt_ok results k hk,
      pure, Except.pure]
    congr 1
    rw [List.take_succ]
    simp [List.getElem?_eq_getElem hk]

theorem listTop_eq_take {K : Type} (results : List (ImageMatch K)) (numMatches : Int) :
    listTop results numMatches
      = Except.ok (results.take (min numMatches (results.length : Int)).toNat) := by
  unfold listTop intRange
  simp only [sub_zero]
  apply listTop_aux
  omega

theorem ImageMatch.lt_iff {K : Type} [LinearOrderedField K] (a b : ImageMatch K) :
    a < b ↔ a.distance < b.distance := Iff.rfl

theorem pair_sublist_of_mem {α : Type} (a b : α) (l : List α) (ha : a ∈ l) (hb : b ∈ l)
    (hab : a ≠ b) : [a, b].Sublist l ∨ [b, a].Sublist l := by
  induction l with
  | nil => simp at ha
  | cons x xs ih =>
    rcases List.mem_cons.mp ha with rfl | ha'
    · rcases List.mem_cons.mp hb with rfl | hb'
      · exact absurd rfl hab
      · exact Or.inl (List.Sublist.cons₂ _ (List.singleton_sublist.mpr hb'))
    · rcases List.mem_cons.mp hb with rfl | hb'
      · exact Or.inr (List.Sublist.cons₂ _ (List.singleton_sublist.mpr ha'))
      · rcases ih ha' hb' with h | h
        · exact Or.inl (List.Sublist.cons _ h)
        · exact Or.inr (List.Sublist.cons _ h)

theorem sorted_perm_unique {K : Type} [LinearOrderedField K] (l out : List (ImageMatch K))
    (hperm : out.Perm l) (hout : out.Pairwise (fun a b => ¬ b < a))
    (hl : l.Pairwise (fun a b => a < b)) : out = l := by
  induction l generalizing out with
  | nil => exact hperm.eq_nil
  | cons x xs ih =>
    cases out with
    | nil => exact absurd hperm.symm.eq_nil (by simp)
    | cons y ys =>
      obtain ⟨hx, hxs⟩ := List.pairwise_cons.mp hl
      obtain ⟨hy, hys⟩ := List.pairwise_cons.mp hout
      have hyx : y = x := by
        by_contra hne
        have hymem : y ∈ xs := by
          rcases List.mem_cons.mp (hperm.subset (List.mem_cons_self y ys)) with h | h
          · exact absurd h hne
          · exact h
        have hxmem : x ∈ ys := by
          rcases List.mem_cons.mp (hperm.symm.subset (List.mem_cons_self x xs)) with h | h
          · exact absurd h.symm hne
          · exact h
        exact hy x hxmem (hx y hymem)
      subst hyx
      rw [ih ys (List.Perm.cons_inv hperm) hys hxs]

theorem rgHistogram_all_black {K : Type} [LinearOrderedField K] [FloorRing K]
    (image : Mat Vec3b) (bins : Nat) (hbins : 1 ≤ bins)
    (hdark : ∀ i j, i < image.rows → j < image.cols →
      (image.data i j).c2.val + (image.data i j).c1.val + (image.data i j).c0.val < 1) :
    HistogramMatch.computeRGHistogram (K := K) image bins
      = Except.error Fault.divisionByZero := by
  unfold HistogramMatch.computeRGHistogram
  obtain ⟨s, hs, hJ⟩ := forGrid_hit 0 image.rows 0 image.cols
    (HistogramMatch.rgLoopBody (K := K) image bins)
    (fun _ s => s = (List.replicate (bins * bins) 0, 0)) (fun _ _ => False)
    (fun c s i j hi0 hi1 hj0 hj1 hJ => by
      unfold HistogramMatch.rgLoopBody
      rw [matAt_ok image i j hi0 hi1 hj0 hj1]
      have hd := hdark i.toNat j.toNat (by omega) (by omega)
      have hdK : ((image.data i.toNat j.toNat).c2.val : K) + ((image.data i.toNat j.toNat).c1.val : K)
          + ((image.data i.toNat j.toNat).c0.val : K) < 1 := by exact_mod_cast hd
      simp only [if_pos hdK]
      exact ⟨s, rfl, hJ⟩)
    False _ rfl
  rw [hs, hJ]
  obtain ⟨n, hn⟩ : ∃ n, bins * bins = n + 1 :=
    Nat.exists_eq_succ_of_ne_zero (Nat.mul_ne_zero (by omega) (by omega))
  simp [hn, List.replicate_succ, divideAll, fdiv]

theorem maxVal_zero {K : Type} [LinearOrderedField K] (m : Mat K)
    (hzero : ∀ i j, i < m.rows → j < m.cols → m.data i j = 0) : m.maxVal = 0 := by
  have hall : ∀ x ∈ m.entries, x = 0 := by
    intro x hx
    unfold Mat.entries at hx
    simp only [List.mem_flatMap, List.mem_map, List.mem_range] at hx
    obtain ⟨i, hi, j, hj, rfl⟩ := hx
    exact hzero i j hi hj
  have hfold : ∀ (l : List K), (∀ x ∈ l, x = 0) → l.foldl max 0 = 0 := by
    intro l
    induction l with
    | nil => intro _; rfl
    | cons y ys ih =>
      intro h
      rw [List.foldl_cons, h y (List.mem_cons_self _ _), max_self]
      exact ih (fun x hx => h x (List.mem_cons_of_mem _ hx))
  unfold Mat.maxVal
  cases hent : m.entries with
  | nil => rfl
  | cons x xs =>
    rw [hent] at hall
    simp only
    rw [hall x (List.mem_cons_self _ _)]
    exact hfold xs (fun y hy => hall y (List.mem_cons_of_mem _ hy))

theorem textureHistogram_uniform {K : Type} [LinearOrderedField K] [FloorRing K]
    (magnitude : Mat K) (bins : Nat) (hrows : 1 ≤ magnitude.rows) (hcols : 1 ≤ magnitude.cols)
    (hzero : ∀ i j, i < magnitude.rows → j < magnitude.cols → magnitude.data i j = 0) :
    TextureColorMatch.computeTextureHistogram magnitude bins
      = Except.error Fault.divisionByZero := by
  unfold TextureColorMatch.computeTextureHistogram
  simp only
  rw [forGrid_error 0 magnitude.rows 0 magnitude.cols _ Fault.divisionByZero (by omega) (by omega)]
  intro s i j hi0 hi1 hj0 hj1
  unfold TextureColorMatch.textureLoopBody
  rw [matAt_ok magnitude i j hi0 hi1 hj0 hj1, maxVal_zero magnitude hzero]
  simp [fdiv]

theorem foldlM_collect {α β : Type} (body : List β → α → Except Fault (List β))
    (h : α → List β) (l : List α)
    (hbody : ∀ x ∈ l, ∀ out, body out x = Except.ok (out ++ h x)) (out : List β) :
    l.foldlM body out = Except.ok (out ++ l.flatMap h) := by
  induction l generalizing out with
  | nil => simp [pure, Except.pure]
  | cons x xs ih =>
    rw [List.foldlM_cons, hbody x (List.mem_cons_self _ _) out]
    simp only [bind, Except.bind]
    rw [ih (fun y hy => hbody y (List.mem_cons_of_mem _ hy))]
    simp

theorem forGrid_collect {β : Type} (r0 r1 c0 c1 : Int)
    (body : List β → Int → Int → Except Fault (List β)) (h : Int → Int → List β)
    (hbody : ∀ i j, r0 ≤ i → i < r1 → c0 ≤ j → j < c1 →
      ∀ out, body out i j = Except.ok (out ++ h i j)) (out : List β) :
    forGrid r0 r1 c0 c1 body out
      = Except.ok (out ++ (intRange r0 r1).flatMap (fun i => (intRange c0 c1).flatMap (h i))) := by
  unfold forGrid
  apply foldlM_collect
  intro i hi out'
  obtain ⟨hi0, hi1⟩ := (mem_intRange _ _ _).mp hi
  apply foldlM_collect
  intro j hj out2
  obtain ⟨hj0, hj1⟩ := (mem_intRange _ _ _).mp hj
  exact hbody i j hi0 hi1 hj0 hj1 out2

theorem length_flatMap_const {α β : Type} (h : α → List β) (n : Nat) (l : List α)
    (hn : ∀ x ∈ l, (h x).length = n) : (l.flatMap h).length = l.length * n := by
  induction l with
  | nil => simp
  | cons x xs ih =>
    rw [List.flatMap_cons, List.length_append, hn x (List.mem_cons_self _ _),
      ih (fun y hy => hn y (List.mem_cons_of_mem _ hy)), List.length_cons]
    ring

theorem length_intRange (lo hi : Int) : (intRange lo hi).length = (hi - lo).toNat := by
  simp [intRange]

theorem extractCenterSquare_ok {K : Type} [LinearOrderedField K] (image : Mat Vec3b)
    (hrows : 7 ≤ image.rows) (hcols : 7 ≤ image.cols) :
    ∃ features : List K, BaselineMatch.extractCenterSquare image = Except.ok features ∧
      features.length = 147 := by
  unfold BaselineMatch.extractCenterSquare
  simp only
  rw [forGrid_collect _ _ _ _ (BaselineMatch.centerLoopBody (K := K) image)
    (fun i j => [((image.data i.toNat j.toNat).c0.val : K),
      ((image.data i.toNat j.toNat).c1.val : K), ((image.data i.toNat j.toNat).c2.val : K)])
    (fun i j hi0 hi1 hj0 hj1 out => by
      unfold BaselineMatch.centerLoopBody
      rw [matAt_ok image i j (by omega) (by omega) (by omega) (by omega)])]
  refine ⟨_, rfl, ?_⟩
  rw [List.nil_append, length_flatMap_const _ 21, length_intRange]
  · have : ((image.rows : Int) / 2 + 3 + 1 - ((image.rows : Int) / 2 - 3)).toNat = 7 := by omega
    rw [this]
  · intro i _
    rw [length_flatMap_const _ 3, length_intRange]
    · have : ((image.cols : Int) / 2 + 3 + 1 - ((image.cols : Int) / 2 - 3)).toNat = 7 := by
        omega
      rw [this]
    · intro j _
      rfl

theorem sum_sq_zip_nonneg {K : Type} [LinearOrderedField K] (l : List (K × K)) :
    0 ≤ (l.map (fun p => (p.1 - p.2) * (p.1 - p.2))).sum := by
  induction l with
  | nil => simp
  | cons x xs ih =>
    simp only [List.map_cons, List.sum_cons]
    exact add_nonneg (mul_self_nonneg _) ih

theorem computeSSD_nonneg {K : Type} [LinearOrderedField K] (a b : List K)
    (hlen : a.length = b.length) : 0 ≤ BaselineMatch.computeSSD a b := by
  unfold BaselineMatch.computeSSD
  simp only [hlen, ne_eq, not_true_eq_false, if_false, foldl_add_eq_sum, zero_add]
  exact sum_sq_zip_nonneg _

theorem sum_min_zip_le {K : Type} [LinearOrderedField K] (a b : List K)
    (hlen : a.length = b.length) :
    ((a.zip b).map (fun p => min p.1 p.2)).sum ≤ a.sum := by
  induction a generalizing b with
  | nil => simp
  | cons x xs ih =>
    cases b with
    | nil => simp at hlen
    | cons y ys =>
      simp only [List.zip_cons_cons, List.map_cons, List.sum_cons]
      simp only [List.length_cons, add_left_inj] at hlen
      exact add_le_add (min_le_left _ _) (ih ys hlen)

theorem histogramIntersection_nonneg {K : Type} [LinearOrderedField K] (a b : List K)
    (hlen : a.length = b.length) (hsum : a.sum = 1) :
    0 ≤ HistogramMatch.histogramIntersection a b := by
  unfold HistogramMatch.histogramIntersection
  simp only [hlen, ne_eq, not_true_eq_false, if_false, foldl_add_eq_sum, zero_add]
  have := sum_min_zip_le a b hlen
  linarith

theorem foldlM_push {α β : Type} (body : List β → α → Except Fault (List β))
    (h : α → β) (l : List α)
    (hbody : ∀ x ∈ l, ∀ out, body out x = Except.ok (out ++ [h x])) :
    l.foldlM body [] = Except.ok (l.map h) := by
  rw [foldlM_collect body (fun x => [h x]) l hbody []]
  congr 1
  induction l with
  | nil => rfl
  | cons x xs ih =>
    simp only [List.flatMap_cons, List.map_cons, List.nil_append, List.singleton_append]
    congr 1
    exact ih (fun y hy => hbody y (List.mem_cons_of_mem _ hy))

theorem sum_zipWith_min {K : Type} [LinearOrderedField K] (a b : List K) :
    ((a.zip b).map (fun p => min p.1 p.2)).sum = (List.zipWith min a b).sum := by
  induction a generalizing b with
  | nil => simp
  | cons x xs ih =>
    cases b with
    | nil => simp
    | cons y ys => simp [ih ys]

theorem sum_zipWith_min_comm {K : Type} [LinearOrderedField K] (a b : List K) :
    (List.zipWith min a b).sum = (List.zipWith min b a).sum := by
  induction a generalizing b with
  | nil => simp
  | cons x xs ih =>
    cases b with
    | nil => simp
    | cons y ys => simp [ih ys, min_comm]

theorem sum_zipWith_min_nonneg {K : Type} [LinearOrderedField K] (a b : List K)
    (ha : ∀ x ∈ a, 0 ≤ x) (hb : ∀ x ∈ b, 0 ≤ x) : 0 ≤ (List.zipWith min a b).sum := by
  induction a generalizing b with
  | nil => simp
  | cons x xs ih =>
    cases b with
    | nil => simp
    | cons y ys =>
      simp only [List.zipWith_cons_cons, List.sum_cons]
      exact add_nonneg (le_min (ha x (List.mem_cons_self _ _)) (hb y (List.mem_cons_self _ _)))
        (ih ys (fun z hz => ha z (List.mem_cons_of_mem _ hz))
          (fun z hz => hb z (List.mem_cons_of_mem _ hz)))

theorem histIntersection_eq {K : Type} [LinearOrderedField K] (a b : List K)
    (hlen : a.length = b.length) :
    HistogramMatch.histogramIntersection a b = 1 - (List.zipWith min a b).sum := by
  unfold HistogramMatch.histogramIntersection
  simp only [hlen, ne_eq, not_true_eq_false, if_false, foldl_add_eq_sum, zero_add,
    sum_zipWith_min]

theorem multiIntersection_eq {K : Type} [LinearOrderedField K] (a b : List K)
    (hlen : a.length = b.length) :
    MultiHistogramMatch.histogramIntersection a b = (List.zipWith min a b).sum := by
  unfold MultiHistogramMatch.histogramIntersection
  simp only [hlen, ne_eq, not_true_eq_false, if_false, foldl_add_eq_sum, zero_add,
    sum_zipWith_min]

theorem textureIntersection_eq {K : Type} [LinearOrderedField K] (a b : List K)
    (hlen : a.length = b.length) :
    TextureColorMatch.histogramIntersection a b = (List.zipWith min a b).sum := by
  unfold TextureColorMatch.histogramIntersection
  simp only [hlen, ne_eq, not_true_eq_false, if_false, foldl_add_eq_sum, zero_add,
    sum_zipWith_min]

theorem histIntersection_comm {K : Type} [LinearOrderedField K] (a b : List K) :
    HistogramMatch.histogramIntersection a b = HistogramMatch.histogramIntersection b a := by
  by_cases hlen : a.length = b.length
  · rw [histIntersection_eq a b hlen, histIntersection_eq b a hlen.symm, sum_zipWith_min_comm]
  · unfold HistogramMatch.histogramIntersection
    rw [if_pos hlen, if_pos (fun h => hlen h.symm)]

theorem multiIntersection_comm {K : Type} [LinearOrderedField K] (a b : List K) :
    MultiHistogramMatch.histogramIntersection a b
      = MultiHistogramMatch.histogramIntersection b a := by
  by_cases hlen : a.length = b.length
  · rw [multiIntersection_eq a b hlen, multiIntersection_eq b a hlen.symm, sum_zipWith_min_comm]
  · unfold MultiHistogramMatch.histogramIntersection
    rw [if_pos hlen, if_pos (fun h => hlen h.symm)]

theorem length_normalizeVector {K : Type} [LinearOrderedField K] (sqrt : K → K) (v : List K) :
    (DeepEmbeddingMatch.normalizeVector sqrt v).length = v.length := by
  unfold DeepEmbeddingMatch.normalizeVector
  simp only
  split_ifs <;> simp

theorem dotProduct_comm {K : Type} [LinearOrderedField K] (a b : List K) :
    DeepEmbeddingMatch.dotProduct a b = DeepEmbeddingMatch.dotProduct b a := by
  unfold DeepEmbeddingMatch.dotProduct
  by_cases hlen : a.length = b.length
  · simp only [hlen, ne_eq, not_true_eq_false, if_false, foldl_add_eq_sum, zero_add]
    rw [← List.zip_swap b a, List.map_map]
    congr 1
    apply List.map_congr_left
    intro p _
    simp [mul_comm]
  · rw [if_pos hlen, if_pos (fun h => hlen h.symm)]

theorem deepCosine_comm {K : Type} [LinearOrderedField K] (sqrt : K → K) (a b : List K) :
    DeepEmbeddingMatch.cosineDistance sqrt a b = DeepEmbeddingMatch.cosineDistance sqrt b a := by
  unfold DeepEmbeddingMatch.cosineDistance
  simp only
  rw [dotProduct_comm]

theorem mismatch_sentinels {K : Type} [LinearOrderedField K] (sqrt : K → K) (a b : List K)
    (hlen : a.length ≠ b.length) :
    BaselineMatch.computeSSD a b = -1 ∧
    DeepEmbeddingMatch.sumSquaredDistance a b = -1 ∧
    HistogramMatch.histogramIntersection a b = -1 ∧
    DeepEmbeddingMatch.dotProduct a b = 0 ∧
    DeepEmbeddingMatch.cosineDistance sqrt a b = 1 := by
  refine ⟨?_, ?_, ?_, ?_, ?_⟩
  · unfold BaselineMatch.computeSSD; rw [if_pos hlen]
  · unfold DeepEmbeddingMatch.sumSquaredDistance; rw [if_pos hlen]
  · unfold HistogramMatch.histogramIntersection; rw [if_pos hlen]
  · unfold DeepEmbeddingMatch.dotProduct; rw [if_pos hlen]
  · unfold DeepEmbeddingMatch.cosineDistance DeepEmbeddingMatch.dotProduct
    simp only [length_normalizeVector]
    rw [if_pos hlen]
    norm_num

theorem dotLoop_eq {K : Type} [LinearOrderedField K] (a b : List K) (hlen : a.length = b.length)
    (acc : K) :
    CustomSunsetMatch.dotLoop a b acc
      = Except.ok ((a.zip b).foldl (fun sum p => sum + p.1 * p.2) acc) := by
  induction a generalizing b acc with
  | nil => simp [CustomSunsetMatch.dotLoop]
  | cons x xs ih =>
    cases b with
    | nil => simp at hlen
    | cons y ys =>
      simp only [List.length_cons, add_left_inj] at hlen
      simp only [CustomSunsetMatch.dotLoop, List.zip_cons_cons, List.foldl_cons]
      exact ih ys hlen _

theorem sunsetCosine_eq {K : Type} [LinearOrderedField K] (sqrt : K → K) (a b : List K)
    (hlen : a.length = b.length) :
    CustomSunsetMatch.cosineDistance sqrt a b
      = Except.ok (DeepEmbeddingMatch.cosineDistance sqrt a b) := by
  have hn : ∀ v : List K, CustomSunsetMatch.normalizeVector sqrt v
      = DeepEmbeddingMatch.normalizeVector sqrt v := fun _ => rfl
  have hl : (DeepEmbeddingMatch.normalizeVector sqrt a).length
      = (DeepEmbeddingMatch.normalizeVector sqrt b).length := by
    rw [length_normalizeVector, length_normalizeVector, hlen]
  unfold CustomSunsetMatch.cosineDistance DeepEmbeddingMatch.cosineDistance
    DeepEmbeddingMatch.dotProduct
  simp only [hn, dotLoop_eq _ _ hl, hl, ne_eq, not_true_eq_false, if_false]

theorem sunsetDistance_eq {K : Type} [LinearOrderedField K] (sqrt : K → K)
    (w1 g1 e1 w2 g2 e2 : K) (d1 d2 : List K) (hlen : d1.length = d2.length) :
    CustomSunsetMatch.computeSunsetDistance sqrt w1 g1 e1 d1 w2 g2 e2 d2
      = Except.ok (0.40 * |w1 - w2| + 0.20 * (|g1 - g2| / 50) + 0.10 * |e1 - e2|
          + 0.30 * DeepEmbeddingMatch.cosineDistance sqrt d1 d2) := by
  unfold CustomSunsetMatch.computeSunsetDistance
  simp only [sunsetCosine_eq sqrt d1 d2 hlen]
  norm_num

theorem foldlM_ok_or_fault {σ α : Type} (body : σ → α → Except Fault σ) (e : Fault)
    (l : List α)
    (hall : ∀ s, ∀ x ∈ l, body s x = Except.error e ∨ ∃ s', body s x = Except.ok s')
    (s0 : σ) : l.foldlM body s0 = Except.error e ∨ ∃ s', l.foldlM body s0 = Except.ok s' := by
  induction l generalizing s0 with
  | nil => exact Or.inr ⟨s0, rfl⟩
  | cons x xs ih =>
    rw [List.foldlM_cons]
    rcases hall s0 x (List.mem_cons_self _ _) with h | ⟨s1, h⟩
    · left
      rw [h]
      rfl
    · rw [h]
      exact ih (fun s y hy => hall s y (List.mem_cons_of_mem _ hy)) s1

theorem foldlM_fault {σ α : Type} (body : σ → α → Except Fault σ) (e : Fault) (l : List α)
    (hall : ∀ s, ∀ x ∈ l, body s x = Except.error e ∨ ∃ s', body s x = Except.ok s')
    (hbad : ∃ x ∈ l, ∀ s, body s x = Except.error e) (s0 : σ) :
    l.foldlM body s0 = Except.error e := by
  induction l generalizing s0 with
  | nil =>
    obtain ⟨x, hx, _⟩ := hbad
    simp at hx
  | cons x xs ih =>
    rw [List.foldlM_cons]
    rcases hall s0 x (List.mem_cons_self _ _) with h | ⟨s1, h⟩
    · rw [h]
      rfl
    · rw [h]
      apply ih (fun s y hy => hall s y (List.mem_cons_of_mem _ hy))
      obtain ⟨y, hy, hyb⟩ := hbad
      rcases List.mem_cons.mp hy with rfl | hy'
      · rw [hyb s0] at h
        cases h
      · exact ⟨y, hy', hyb⟩

theorem forGrid_fault {σ : Type} (r0 r1 c0 c1 : Int) (body : σ → Int → Int → Except Fault σ)
    (e : Fault)
    (hall : ∀ s i j, body s i j = Except.error e ∨ ∃ s', body s i j = Except.ok s')
    (hbad : ∃ i j, r0 ≤ i ∧ i < r1 ∧ c0 ≤ j ∧ j < c1 ∧ ∀ s, body s i j = Except.error e)
    (s0 : σ) : forGrid r0 r1 c0 c1 body s0 = Except.error e := by
  unfold forGrid
  obtain ⟨i, j, hi0, hi1, hj0, hj1, hb⟩ := hbad
  apply foldlM_fault
  · intro s i' _
    exact foldlM_ok_or_fault _ e _ (fun s' j' _ => hall s' i' j') s
  · refine ⟨i, (mem_intRange _ _ _).mpr ⟨hi0, hi1⟩, fun s => ?_⟩
    exact foldlM_fault _ e _ (fun s' j' _ => hall s' i j')
      ⟨j, (mem_intRange _ _ _).mpr ⟨hj0, hj1⟩, hb⟩ s

theorem extractCenterSquare_small {K : Type} [LinearOrderedField K] (image : Mat Vec3b)
    (hsmall : image.rows < 7 ∨ image.cols < 7) :
    BaselineMatch.extractCenterSquare (K := K) image = Except.error Fault.outOfBounds := by
  unfold BaselineMatch.extractCenterSquare
  simp only
  apply forGrid_fault
  · intro s i j
    unfold BaselineMatch.centerLoopBody Mat.at?
    split_ifs
    · exact Or.inr ⟨_, rfl⟩
    · exact Or.inl rfl
  · rcases hsmall with h | h
    · refine ⟨(image.rows : Int) / 2 + 3, (image.cols : Int) / 2 - 3,
        by omega, by omega, by omega, by omega, fun s => ?_⟩
      unfold BaselineMatch.centerLoopBody Mat.at?
      rw [if_neg (by omega)]
    · refine ⟨(image.rows : Int) / 2 - 3, (image.cols : Int) / 2 + 3,
        by omega, by omega, by omega, by omega, fun s => ?_⟩
      unfold BaselineMatch.centerLoopBody Mat.at?
      rw [if_neg (by omega)]

theorem getElem?_flatMap_const {α β : Type} (h : α → List β) (k : Nat) (l : List α)
    (hk : ∀ x ∈ l, (h x).length = k) (n r : Nat) (x : α) (hx : l[n]? = some x) (hr : r < k) :
    (l.flatMap h)[n * k + r]? = (h x)[r]? := by
  induction l generalizing n with
  | nil => simp at hx
  | cons y ys ih =>
    rw [List.flatMap_cons]
    have hy : (h y).length = k := hk y (List.mem_cons_self _ _)
    cases n with
    | zero =>
      simp only [List.getElem?_cons_zero, Option.some.injEq] at hx
      subst hx
      rw [Nat.zero_mul, Nat.zero_add, List.getElem?_append_left (by omega)]
    | succ m =>
      simp only [List.getElem?_cons_succ] at hx
      rw [List.getElem?_append_right (by rw [hy]; nlinarith)]
      have e : (m + 1) * k + r - (h y).length = m * k + r := by
        rw [hy, Nat.succ_mul]
        omega
      rw [e]
      exact ih (fun z hz => hk z (List.mem_cons_of_mem _ hz)) m hx

theorem getElem?_intRange (lo hi : Int) (n : Nat) (hn : n < (hi - lo).toNat) :
    (intRange lo hi)[n]? = some (lo + (n : Int)) := by
  unfold intRange
  simp [List.getElem?_map, List.getElem?_range hn]

theorem extractCenterSquare_eq {K : Type} [LinearOrderedField K] (image : Mat Vec3b)
    (hrows : 7 ≤ image.rows) (hcols : 7 ≤ image.cols) :
    BaselineMatch.extractCenterSquare (K := K) image = Except.ok
      ((intRange ((image.rows : Int) / 2 - 3) ((image.rows : Int) / 2 + 3 + 1)).flatMap (fun i =>
        (intRange ((image.cols : Int) / 2 - 3) ((image.cols : Int) / 2 + 3 + 1)).flatMap (fun j =>
          [((image.data i.toNat j.toNat).c0.val : K), ((image.data i.toNat j.toNat).c1.val : K),
            ((image.data i.toNat j.toNat).c2.val : K)]))) := by
  unfold BaselineMatch.extractCenterSquare
  simp only
  rw [forGrid_collect _ _ _ _ (BaselineMatch.centerLoopBody (K := K) image)
    (fun i j => [((image.data i.toNat j.toNat).c0.val : K),
      ((image.data i.toNat j.toNat).c1.val : K), ((image.data i.toNat j.toNat).c2.val : K)])
    (fun i j hi0 hi1 hj0 hj1 out => by
      unfold BaselineMatch.centerLoopBody
      rw [matAt_ok image i j (by omega) (by omega) (by omega) (by omega)])]
  rfl

theorem extractCenterSquare_entry {K : Type} [LinearOrderedField K] (image : Mat Vec3b)
    (hrows : 7 ≤ image.rows) (hcols : 7 ≤ image.cols) (features : List K)
    (hf : BaselineMatch.extractCenterSquare image = Except.ok features)
    (di dj c : Nat) (hdi : di < 7) (hdj : dj < 7) (hc : c < 3) :
    features[3 * (7 * di + dj) + c]?
      = [((image.data (image.rows / 2 - 3 + di) (image.cols / 2 - 3 + dj)).c0.val : K),
          ((image.data (image.rows / 2 - 3 + di) (image.cols / 2 - 3 + dj)).c1.val : K),
          ((image.data (image.rows / 2 - 3 + di) (image.cols / 2 - 3 + dj)).c2.val : K)][c]? := by
  rw [extractCenterSquare_eq image hrows hcols] at hf
  cases hf
  have hidx : 3 * (7 * di + dj) + c = di * 21 + (dj * 3 + c) := by ring
  rw [hidx]
  rw [getElem?_flatMap_const _ 21 _ _ di (dj * 3 + c) _
    (getElem?_intRange _ _ di (by omega)) (by omega)]
  · rw [getElem?_flatMap_const _ 3 _ _ dj c _ (getElem?_intRange _ _ dj (by omega)) hc]
    · have e1 : ((image.rows : Int) / 2 - 3 + (di : Int)).toNat = image.rows / 2 - 3 + di := by
        omega
      have e2 : ((image.cols : Int) / 2 - 3 + (dj : Int)).toNat = image.cols / 2 - 3 + dj := by
        omega
      rw [e1, e2]
    · intro j _
      rfl
  · intro i _
    rw [length_flatMap_const _ 3, length_intRange]
    · have : ((image.cols : Int) / 2 + 3 + 1 - ((image.cols : Int) / 2 - 3)).toNat = 7 := by
        omega
      rw [this]
    · intro j _
      rfl

theorem baseline_collect_ok {K : Type} [LinearOrderedField K] (targetFeatures : List K)
    (corpus : List (String × Mat Vec3b))
    (hsize : ∀ e ∈ corpus, 7 ≤ e.2.rows ∧ 7 ≤ e.2.cols) :
    ∃ results, BaselineMatch.collectMatches targetFeatures corpus = Except.ok results ∧
      results.map (fun m => m.filename) = corpus.map (fun e => e.1) := by
  refine ⟨corpus.map (fun e =>
      ({ filename := e.1, distance := BaselineMatch.computeSSD targetFeatures
          (match BaselineMatch.extractCenterSquare (K := K) e.2 with
            | Except.ok f => f
            | Except.error _ => []) } : ImageMatch K)), ?_, ?_⟩
  · unfold BaselineMatch.collectMatches
    apply foldlM_push
    intro e he out
    obtain ⟨f, hf, _⟩ := extractCenterSquare_ok (K := K) e.2 (hsize e he).1 (hsize e he).2
    simp only [hf]
  · rw [List.map_map]
    rfl

theorem rankStage_all {K : Type} [LinearOrderedField K]
    (sort : List (ImageMatch K) → List (ImageMatch K)) (hsort : StdSortSpec sort)
    (results : List (ImageMatch K)) :
    rankStage sort results (results.length : Int) = Except.ok (sort results) ∧
      (sort results).Perm results := by
  obtain ⟨hperm, _⟩ := hsort results
  refine ⟨?_, hperm⟩
  unfold rankStage
  rw [listTop_eq_take, hperm.length_eq, min_self, Int.toNat_ofNat, ← hperm.length_eq,
    List.take_length]

theorem lookup_miss {K : Type} [LinearOrderedField K] (table : List (String × List K))
    (name : String) (hmiss : ∀ e ∈ table, e.1 ≠ name) :
    CustomSunsetMatch.lookupEmbedding table name = List.replicate 512 0 := by
  unfold CustomSunsetMatch.lookupEmbedding
  have hnone : table.find? (fun e => e.1 == name) = none := by
    rw [List.find?_eq_none]
    intro e he
    simpa using hmiss e he
  simp [hnone]

theorem lookup_hit {K : Type} [LinearOrderedField K] (table : List (String × List K))
    (name : String) (e : String × List K)
    (hfind : table.find? (fun e => e.1 == name) = some e) (hne : e.2 ≠ []) :
    CustomSunsetMatch.lookupEmbedding table name = e.2 := by
  unfold CustomSunsetMatch.lookupEmbedding
  simp [hfind, hne]

theorem listRange_aux {K : Type} (results : List (CustomSunsetMatch.ImageFeatures K))
    (lo n : Nat) (hn : lo + n ≤ results.length) :
    ((List.range n).map (fun (k : Nat) => ((lo : Nat) : Int) + (k : Int))).foldlM
      (fun out i =>
        match vecAt? results i with
        | Except.error e => Except.error e
        | Except.ok m => Except.ok (out ++ [m])) []
      = Except.ok ((results.drop lo).take n) := by
  induction n with
  | zero => rfl
  | succ k ih =>
    have hk : lo + k < results.length := by omega
    rw [List.range_succ, List.map_append, List.foldlM_append, ih (by omega)]
    have hcast : ((lo : Nat) : Int) + (k : Int) = ((lo + k : Nat) : Int) := by push_cast; rfl
    simp only [List.map_cons, List.map_nil, bind, Except.bind, List.foldlM_cons,
      List.foldlM_nil, hcast, vecAt_ok results (lo + k) hk, pure, Except.pure]
    congr 1
    rw [List.take_succ]
    simp [List.getElem?_drop, List.getElem?_eq_getElem hk]

theorem listRange_eq {K : Type} (results : List (CustomSunsetMatch.ImageFeatures K))
    (lo hi : Int) (hlo : 0 ≤ lo) (hle : lo ≤ hi) (hhi : hi ≤ results.length) :
    CustomSunsetMatch.listRange results lo hi
      = Except.ok ((results.drop lo.toNat).take (hi - lo).toNat) := by
  unfold CustomSunsetMatch.listRange intRange
  have := listRange_aux results lo.toNat (hi - lo).toNat (by omega)
  rw [Int.toNat_of_nonneg hlo] at this
  exact this

theorem sunset_rankStage_eq {K : Type}
    (sort : List (CustomSunsetMatch.ImageFeatures K) → List (CustomSunsetMatch.ImageFeatures K))
    (results : List (CustomSunsetMatch.ImageFeatures K)) (numMatches : Int) :
    CustomSunsetMatch.rankStage sort results numMatches
      = Except.ok ((sort results).take (min numMatches ((sort results).length : Int)).toNat,
          (sort results).drop ((sort results).length - min 5 (sort results).length)) := by
  unfold CustomSunsetMatch.rankStage
  simp only
  by_cases hk : 0 ≤ numMatches
  · rw [listRange_eq _ 0 _ (le_refl _) (by omega) (by omega),
      listRange_eq _ (max 0 (((sort results).length : Int) - 5)) _ (by omega) (by omega)
        (le_refl _)]
    simp only [Int.toNat_zero, List.drop_zero, sub_zero]
    congr 2
    have e1 : (max 0 (((sort results).length : Int) - 5)).toNat
        = (sort results).length - min 5 (sort results).length := by omega
    rw [e1]
    apply List.take_of_length_le
    rw [List.length_drop]
    omega
  · have hnil : intRange 0 (min numMatches ((sort results).length : Int)) = [] := by
      unfold intRange
      have : (min numMatches ((sort results).length : Int) - 0).toNat = 0 := by omega
      rw [this]
      rfl
    have htop : CustomSunsetMatch.listRange (sort results) 0
        (min numMatches ((sort results).length : Int)) = Except.ok [] := by
      unfold CustomSunsetMatch.listRange
      rw [hnil]
      rfl
    rw [htop, listRange_eq _ (max 0 (((sort results).length : Int) - 5)) _ (by omega) (by omega)
        (le_refl _)]
    simp only
    have e0 : (min numMatches ((sort results).length : Int)).toNat = 0 := by omega
    rw [e0, List.take_zero]
    congr 2
    have e1 : (max 0 (((sort results).length : Int) - 5)).toNat
        = (sort results).length - min 5 (sort results).length := by omega
    rw [e1]
    apply List.take_of_length_le
    rw [List.length_drop]
    omega

theorem distanceSort_spec {K : Type} [LinearOrderedField K] :
    CustomSunsetMatch.SortSpec (CustomSunsetMatch.distanceSort (K := K)) := by
  intro l
  haveI : IsTotal (CustomSunsetMatch.ImageFeatures K) (fun a b => a.distance ≤ b.distance) :=
    ⟨fun a b => le_total a.distance b.distance⟩
  haveI : IsTrans (CustomSunsetMatch.ImageFeatures K) (fun a b => a.distance ≤ b.distance) :=
    ⟨fun a b c hab hbc => le_trans hab hbc⟩
  refine ⟨List.perm_insertionSort _ l, ?_⟩
  have hs := List.sorted_insertionSort (fun (a b : CustomSunsetMatch.ImageFeatures K) =>
    a.distance ≤ b.distance) l
  exact List.Pairwise.imp (fun h => not_lt.mpr h) hs

theorem sublist_of_distance_lt {K : Type} [LinearOrderedField K]
    (sort : List (ImageMatch K) → List (ImageMatch K)) (hsort : StdSortSpec sort)
    (results : List (ImageMatch K)) (a b : ImageMatch K) (ha : a ∈ results) (hb : b ∈ results)
    (hlt : a.distance < b.distance) : [a, b].Sublist (sort results) := by
  obtain ⟨hperm, hsorted⟩ := hsort results
  have hne : a ≠ b := by
    rintro rfl
    exact lt_irrefl _ hlt
  rcases pair_sublist_of_mem a b (sort results) (hperm.symm.subset ha) (hperm.symm.subset hb) hne
    with h | h
  · exact h
  · exfalso
    have := hsorted.sublist h
    simp only [List.pairwise_cons, List.mem_singleton, forall_eq] at this
    exact this.1 hlt

theorem computeSSD_eq_neg_one_iff {K : Type} [LinearOrderedField K] (a b : List K) :
    BaselineMatch.computeSSD a b = -1 ↔ a.length ≠ b.length := by
  constructor
  · intro h hlen
    have := computeSSD_nonneg a b hlen
    rw [h] at this
    linarith
  · intro hlen
    unfold BaselineMatch.computeSSD
    rw [if_pos hlen]

theorem sunsetNormalize_zero {K : Type} [LinearOrderedField K] (sqrt : K → K) (z : List K)
    (hz : ∀ x ∈ z, x = 0) : CustomSunsetMatch.normalizeVector sqrt z = z := by
  unfold CustomSunsetMatch.normalizeVector
  simp only
  split_ifs
  · conv_rhs => rw [← List.map_id z]
    apply List.map_congr_left
    intro x hx
    rw [hz x hx]
    simp
  · rfl

theorem sum_zero_mul_zip {K : Type} [LinearOrderedField K] (z v : List K)
    (hz : ∀ x ∈ z, x = 0) : ((z.zip v).map (fun p => p.1 * p.2)).sum = 0 := by
  induction z generalizing v with
  | nil => simp
  | cons x xs ih =>
    cases v with
    | nil => simp
    | cons y ys =>
      simp only [List.zip_cons_cons, List.map_cons, List.sum_cons,
        hz x (List.mem_cons_self _ _), zero_mul, zero_add]
      exact ih ys (fun w hw => hz w (List.mem_cons_of_mem _ hw))

theorem deepCosine_zero_left {K : Type} [LinearOrderedField K] (sqrt : K → K) (z v : List K)
    (hz : ∀ x ∈ z, x = 0) : DeepEmbeddingMatch.cosineDistance sqrt z v = 1 := by
  have hn : DeepEmbeddingMatch.normalizeVector sqrt z = z := sunsetNormalize_zero sqrt z hz
  have hd : ∀ w : List K, DeepEmbeddingMatch.dotProduct z w = 0 := by
    intro w
    unfold DeepEmbeddingMatch.dotProduct
    split_ifs
    · rfl
    · rw [foldl_add_eq_sum, zero_add, sum_zero_mul_zip z w hz]
  unfold DeepEmbeddingMatch.cosineDistance
  simp only [hn, hd]
  norm_num

theorem sunsetCosine_zero_left {K : Type} [LinearOrderedField K] (sqrt : K → K) (z v : List K)
    (hz : ∀ x ∈ z, x = 0) (hlen : z.length = v.length) :
    CustomSunsetMatch.cosineDistance sqrt z v = Except.ok 1 := by
  rw [sunsetCosine_eq sqrt z v hlen, deepCosine_zero_left sqrt z v hz]

theorem sort_eq_of_perm {K : Type} [LinearOrderedField K]
    (sort : List (ImageMatch K) → List (ImageMatch K)) (hsort : StdSortSpec sort)
    (results reordered : List (ImageMatch K)) (hperm : reordered.Perm results)
    (hdistinct : (results.map (fun m => m.distance)).Nodup) :
    sort reordered = sort results := by
  obtain ⟨hp, hs⟩ := hsort results
  obtain ⟨hp', hs'⟩ := hsort reordered
  have hnodup : ((sort results).map (fun m => m.distance)).Nodup :=
    (hp.map _).nodup_iff.mpr hdistinct
  have hne : (sort results).Pairwise (fun a b => a.distance ≠ b.distance) :=
    List.pairwise_map.mp hnodup
  have hstrict : (sort results).Pairwise (fun a b => a < b) := by
    refine (hs.and hne).imp ?_
    rintro a b ⟨hle, hab⟩
    exact lt_of_le_of_ne (not_lt.mp hle) hab
  exact sorted_perm_unique (sort results) (sort reordered)
    ((hp'.trans hperm).trans hp.symm) hs' hstrict

theorem distanceStage_perm {K : Type} (metric : List K → List K → K) (target : List K)
    (corpus reordered : List (String × List K)) (hperm : reordered.Perm corpus) :
    (distanceStage metric target reordered).Perm (distanceStage metric target corpus) :=
  hperm.map _

theorem distanceStage_distances {K : Type} (metric : List K → List K → K) (target : List K)
    (corpus : List (String × List K)) :
    (distanceStage metric target corpus).map (fun m => m.distance)
      = corpus.map (fun e => metric target e.2) := by
  unfold distanceStage
  rw [List.map_map]
  rfl

theorem ranked_pair_order {K : Type} [LinearOrderedField K]
    (sort : List (ImageMatch K) → List (ImageMatch K)) (hsort : StdSortSpec sort)
    (results : List (ImageMatch K)) (a b : ImageMatch K) (ha : a ∈ results)
    (hlt : a.distance < b.distance) (numMatches : Int) :
    ∃ out, rankStage sort results numMatches = Except.ok out ∧
      (b ∈ out → [a, b].Sublist out) ∧ ¬ [b, a].Sublist out ∧
      ((results.length : Int) ≤ numMatches → b ∈ results → [a, b].Sublist out) := by
  obtain ⟨hperm, hsorted⟩ := hsort results
  have hne : a ≠ b := by
    rintro rfl
    exact lt_irrefl _ hlt
  have hrun : rankStage sort results numMatches
      = Except.ok ((sort results).take (min numMatches ((sort results).length : Int)).toNat) := by
    unfold rankStage
    rw [listTop_eq_take]
  have hnot : ∀ n, ¬ [b, a].Sublist ((sort results).take n) := by
    intro n hsub
    have := hsorted.sublist (hsub.trans (List.take_sublist _ _))
    simp only [List.pairwise_cons, List.mem_singleton, forall_eq] at this
    exact this.1 hlt
  have hin : ∀ n, b ∈ (sort results).take n → [a, b].Sublist ((sort results).take n) := by
    intro n hb
    have hsplit : (sort results).take n ++ (sort results).drop n = sort results :=
      List.take_append_drop _ _
    have hmem : a ∈ (sort results).take n ++ (sort results).drop n := by
      rw [hsplit]
      exact hperm.symm.subset ha
    rcases List.mem_append.mp hmem with h | h
    · rcases pair_sublist_of_mem a b _ h hb hne with h' | h'
      · exact h'
      · exact absurd h' (hnot n)
    · exfalso
      have hpw := hsorted
      rw [← hsplit, List.pairwise_append] at hpw
      exact hpw.2.2 b hb a h hlt
  refine ⟨_, hrun, hin _, hnot _, ?_⟩
  intro hk hb
  apply hin
  rw [hperm.length_eq, min_eq_right hk, Int.toNat_ofNat, ← hperm.length_eq, List.take_length]
  exact hperm.symm.subset hb

/-! ## The claims -/

/-- Claim C1: for vectors `a` and `b` of equal length, `computeSSD` of
`baseline_match.cpp` and `sumSquaredDistance` of `deep_embedding_match.cpp`
return the same value when the two arguments are swapped. -/
theorem computeSSD_symmetric {K : Type} [LinearOrderedField K] (a b : List K)
    (hlen : a.length = b.length) :
    BaselineMatch.computeSSD a b = BaselineMatch.computeSSD b a ∧
      DeepEmbeddingMatch.sumSquaredDistance a b = DeepEmbeddingMatch.sumSquaredDistance b a := by
  unfold BaselineMatch.computeSSD DeepEmbeddingMatch.sumSquaredDistance
  simp only [hlen, ne_eq, not_true_eq_false, if_false, foldl_add_eq_sum, zero_add]
  exact ⟨sum_sq_zip_comm a b, sum_sq_zip_comm a b⟩

/-- Witness of claim C1 on the vectors `[3, 1]` and `[1, 5]`. -/
theorem computeSSD_symmetric_witness :
    ([3, 1] : List ℚ).length = ([1, 5] : List ℚ).length ∧
    (BaselineMatch.computeSSD [(3 : ℚ), 1] [1, 5] = BaselineMatch.computeSSD [1, 5] [3, 1] ∧
      DeepEmbeddingMatch.sumSquaredDistance [(3 : ℚ), 1] [1, 5]
        = DeepEmbeddingMatch.sumSquaredDistance [1, 5] [3, 1]) :=
  ⟨rfl, computeSSD_symmetric [3, 1] [1, 5] rfl⟩

/-- Claim C2, amended: `histogramIntersection h h` is `1 - Σ h`, so it is `0`
exactly when the bins of `h` sum to 1. -/
theorem histogramIntersection_self {K : Type} [LinearOrderedField K] (h : List K) :
    HistogramMatch.histogramIntersection h h = 1 - h.sum ∧
      (HistogramMatch.histogramIntersection h h = 0 ↔ h.sum = 1) := by
  refine ⟨histIntersection_self_eq h, ?_⟩
  rw [histIntersection_self_eq h]
  constructor
  · intro h0; linarith
  · intro h1; rw [h1]; ring

/-- Claim C2 as stated fails: the all-zero histogram is at distance 1 from
itself, the histogram `[1/2, 1/4, 0, 0]` at distance 1/4. -/
theorem histogramIntersection_self_counterexample :
    HistogramMatch.histogramIntersection ([0, 0, 0, 0] : List ℚ) [0, 0, 0, 0] = 1 ∧
    HistogramMatch.histogramIntersection ([1 / 2, 1 / 4, 0, 0] : List ℚ) [1 / 2, 1 / 4, 0, 0]
      = 1 / 4 ∧
    ¬ (∀ h : List ℚ, HistogramMatch.histogramIntersection h h = 0) := by
  have h1 : HistogramMatch.histogramIntersection ([0, 0, 0, 0] : List ℚ) [0, 0, 0, 0] = 1 := by
    norm_num [HistogramMatch.histogramIntersection]
  refine ⟨h1, by norm_num [HistogramMatch.histogramIntersection], ?_⟩
  intro hall
  rw [hall] at h1
  exact zero_ne_one h1

/-- Claim C3: in exact arithmetic (`sqrt` an exact square root), every non-zero
vector `v` has `cosineDistance v v = 0` and `cosineDistance v (-v) = 2`. -/
theorem cosineDistance_self_and_opposite {K : Type} [LinearOrderedField K] (sqrt : K → K)
    (hsqrt : IsExactSqrt sqrt) (v : List K) (hv : NonZero v) :
    DeepEmbeddingMatch.cosineDistance sqrt v v = 0 ∧
      DeepEmbeddingMatch.cosineDistance sqrt v (v.map (fun x => -x)) = 2 :=
  ⟨cosine_self_zero sqrt hsqrt v hv, cosine_opposite_two sqrt hsqrt v hv⟩

/-- Witness of claim C3: the real square root and the vector `[3, 4]`. -/
theorem cosineDistance_self_and_opposite_witness :
    IsExactSqrt Real.sqrt ∧ NonZero [(3 : ℝ), 4] ∧
    DeepEmbeddingMatch.cosineDistance Real.sqrt [(3 : ℝ), 4] [3, 4] = 0 ∧
      DeepEmbeddingMatch.cosineDistance Real.sqrt [(3 : ℝ), 4] ([3, 4].map (fun x => -x)) = 2 :=
  have hv : NonZero [(3 : ℝ), 4] := ⟨3, by simp, by norm_num⟩
  ⟨real_sqrt_exact, hv, cosineDistance_self_and_opposite Real.sqrt real_sqrt_exact [3, 4] hv⟩

/-- Claim C5: with `n` results, the ranking stage lists exactly the first
`min(k, n)` records of the sorted results, which are a rearrangement of the
results in non-decreasing distance order; for `k ≥ n` it lists all of them, and
for an empty corpus or `k ≤ 0` it lists nothing. -/
theorem ranking_lists_first_k {K : Type} [LinearOrderedField K]
    (sort : List (ImageMatch K) → List (ImageMatch K)) (hsort : StdSortSpec sort)
    (results : List (ImageMatch K)) (numMatches : Int) :
    (sort results).Perm results ∧
    (sort results).Pairwise (fun a b => a.distance ≤ b.distance) ∧
    rankStage sort results numMatches
      = Except.ok ((sort results).take (min numMatches (results.length : Int)).toNat) ∧
    ((results.length : Int) ≤ numMatches →
      rankStage sort results numMatches = Except.ok (sort results)) ∧
    (results = [] ∨ numMatches ≤ 0 → rankStage sort results numMatches = Except.ok []) := by
  obtain ⟨hperm, hsorted⟩ := hsort results
  have hlen : (sort results).length = results.length := hperm.length_eq
  have htake : rankStage sort results numMatches
      = Except.ok ((sort results).take (min numMatches (results.length : Int)).toNat) := by
    unfold rankStage
    rw [listTop_eq_take, hlen]
  refine ⟨hperm, ?_, htake, ?_, ?_⟩
  · exact hsorted.imp (fun h => not_lt.mp h)
  · intro hk
    rw [htake, min_eq_right hk, Int.toNat_ofNat, ← hlen, List.take_length]
  · rintro (hnil | hk)
    · rw [htake, hnil]
      simp
    · rw [htake]
      have : (min numMatches (results.length : Int)).toNat = 0 := by omega
      rw [this, List.take_zero]

/-- Witness of claim C5 on three records and `k = 2`: the two nearest records
are listed, nearest first. -/
theorem ranking_lists_first_k_witness :
    StdSortSpec (frontInsertionSort (K := ℚ)) ∧
    rankStage frontInsertionSort
        [({ filename := "a", distance := 3 } : ImageMatch ℚ),
          { filename := "b", distance := 1 }, { filename := "c", distance := 2 }] 2
      = Except.ok [{ filename := "b", distance := 1 }, { filename := "c", distance := 2 }] := by
  have h := (ranking_lists_first_k frontInsertionSort frontInsertionSort_spec
    [({ filename := "a", distance := 3 } : ImageMatch ℚ), { filename := "b", distance := 1 },
      { filename := "c", distance := 2 }] 2).2.2.1
  refine ⟨frontInsertionSort_spec, ?_⟩
  rw [h]
  norm_num [frontInsertionSort, insertFront, ImageMatch.lt_iff]
  rfl

/-- Claim C6, amended: the ranking is ordered by distance alone.  For every `k`
the listing never shows a corpus entry with the larger distance before one with
the smaller distance; whenever the entry with the larger distance is listed, the
one with the smaller distance is listed before it; and the full listing shows
both, the smaller first.  When the distances of the corpus entries are pairwise
distinct the listing is the same for every enumeration order of the corpus.
This holds for every sort that meets the guarantee of `std::sort`; nothing is
said for entries of equal distance. -/
theorem ranking_determined_by_distances {K : Type} [LinearOrderedField K]
    (sort : List (ImageMatch K) → List (ImageMatch K)) (hsort : StdSortSpec sort)
    (metric : List K → List K → K) (target : List K)
    (corpus reordered : List (String × List K)) (hperm : reordered.Perm corpus)
    (e1 e2 : String × List K) (h1 : e1 ∈ corpus) (h2 : e2 ∈ corpus)
    (hlt : metric target e1.2 < metric target e2.2) (numMatches : Int) :
    (∃ out, rankStage sort (distanceStage metric target corpus) numMatches = Except.ok out ∧
      (({ filename := e2.1, distance := metric target e2.2 } : ImageMatch K) ∈ out →
        [({ filename := e1.1, distance := metric target e1.2 } : ImageMatch K),
          { filename := e2.1, distance := metric target e2.2 }].Sublist out) ∧
      ¬ [({ filename := e2.1, distance := metric target e2.2 } : ImageMatch K),
        { filename := e1.1, distance := metric target e1.2 }].Sublist out ∧
      ((corpus.length : Int) ≤ numMatches →
        [({ filename := e1.1, distance := metric target e1.2 } : ImageMatch K),
          { filename := e2.1, distance := metric target e2.2 }].Sublist out)) ∧
    ((corpus.map (fun e => metric target e.2)).Nodup →
      rankStage sort (distanceStage metric target reordered) numMatches
        = rankStage sort (distanceStage metric target corpus) numMatches) := by
  constructor
  · obtain ⟨out, hrun, hin, hnot, hfull⟩ := ranked_pair_order sort hsort
      (distanceStage metric target corpus)
      { filename := e1.1, distance := metric target e1.2 }
      { filename := e2.1, distance := metric target e2.2 }
      (List.mem_map.mpr ⟨e1, h1, rfl⟩) hlt numMatches
    refine ⟨out, hrun, hin, hnot, ?_⟩
    intro hk
    apply hfull
    · simpa [distanceStage] using hk
    · exact List.mem_map.mpr ⟨e2, h2, rfl⟩
  · intro hdistinct
    unfold rankStage
    rw [sort_eq_of_perm sort hsort _ _ (distanceStage_perm metric target corpus reordered hperm)
      (by rw [distanceStage_distances]; exact hdistinct)]

/-- Witness of the amended claim C6: the three-entry scenario, whose distances
1, 0, 2 are distinct, in two enumeration orders and with `k = 2`. -/
theorem ranking_determined_by_distances_witness :
    rankStage frontInsertionSort
        (distanceStage BaselineMatch.computeSSD scenarioQuery scenarioCorpusReordered) 2
      = rankStage frontInsertionSort
        (distanceStage BaselineMatch.computeSSD scenarioQuery scenarioCorpus) 2 :=
  (ranking_determined_by_distances frontInsertionSort frontInsertionSort_spec
    BaselineMatch.computeSSD scenarioQuery scenarioCorpus scenarioCorpusReordered
    (by
      unfold scenarioCorpus scenarioCorpusReordered
      exact (List.Perm.swap _ _ _).trans (List.Perm.cons _ (List.Perm.swap _ _ _)))
    ("entry_at_[1,0]", [1, 0]) ("entry_at_[0,1]", [0, 1])
    (by simp [scenarioCorpus]) (by simp [scenarioCorpus])
    (by norm_num [BaselineMatch.computeSSD, scenarioQuery]) 2).2
    (by norm_num [BaselineMatch.computeSSD, scenarioQuery, scenarioCorpus])

/-- Claim C6 as stated fails: on a CSV table of seventeen rows with the same
embedding `[1, 0]` every distance is 0, and the `std::sort` of libstdc++ (one
partitioning step of its introsort, then insertion sort) leaves the records in
the order `r08, r16, r15, ..., r09, r00, r07, ..., r01`.  The program
`deep_embedding_match` lists them so: `r01` is enumerated before `r02` and
listed after it.  The square root is `Rat.sqrt`, taken at 1 only, where it
is 1. -/
theorem ranking_not_stable_counterexample :
    distanceStage (DeepEmbeddingMatch.cosineDistance Rat.sqrt) [1, 0] tieDatabase = tieResults ∧
    LibStdCxx.sort (fun (a b : ImageMatch ℚ) => decide (a < b)) tieResults
      = some tieRanking ∧
    DeepEmbeddingMatch.main Rat.sqrt libstdcxxSort "r00" tieDatabase 17
      = Except.ok tieRanking ∧
    [({ filename := "r01", distance := 0 } : ImageMatch ℚ),
      { filename := "r02", distance := 0 }].Sublist tieResults ∧
    [({ filename := "r02", distance := 0 } : ImageMatch ℚ),
      { filename := "r01", distance := 0 }].Sublist tieRanking ∧
    ¬ [({ filename := "r01", distance := 0 } : ImageMatch ℚ),
      { filename := "r02", distance := 0 }].Sublist tieRanking := by
  have hsqrt : Rat.sqrt 1 = 1 := by simp
  have hdist : DeepEmbeddingMatch.cosineDistance Rat.sqrt [1, 0] [1, 0] = 0 := by
    norm_num [DeepEmbeddingMatch.cosineDistance, DeepEmbeddingMatch.normalizeVector,
      DeepEmbeddingMatch.computeL2Norm, DeepEmbeddingMatch.dotProduct, hsqrt]
  have hstage : distanceStage (DeepEmbeddingMatch.cosineDistance Rat.sqrt) [1, 0] tieDatabase
      = tieResults := by
    simp [distanceStage, tieDatabase, tieResults, hdist]
  have hsorted : LibStdCxx.sort (fun (a b : ImageMatch ℚ) => decide (a < b)) tieResults
      = some tieRanking := by decide
  refine ⟨hstage, hsorted, ?_, by decide, by decide, ?_⟩
  · have hfind : tieDatabase.find? (fun e => e.1 == "r00") = some ("r00", [1, 0]) := by
      simp [tieDatabase]
    unfold DeepEmbeddingMatch.main
    rw [hfind]
    show rankStage libstdcxxSort
      (distanceStage (DeepEmbeddingMatch.cosineDistance Rat.sqrt) [1, 0] tieDatabase) 17 = _
    rw [hstage]
    unfold rankStage libstdcxxSort
    rw [listTop_eq_take, hsorted]
    rfl
  · intro hsub
    have hnames := hsub.map ImageMatch.filename
    revert hnames
    decide

/-- Claim C8: the corpus `[0,0]`, `[1,0]`, `[0,1]` against the query `[1,0]`
under `computeSSD` has distances 1, 0, 2, and with `k = 2` the ranking lists
the `[1,0]` entry first and the `[0,0]` entry second, for every sort that meets
the guarantee of `std::sort`. -/
theorem rank_three_entry_scenario (sort : List (ImageMatch ℚ) → List (ImageMatch ℚ))
    (hsort : StdSortSpec sort) :
    distanceStage BaselineMatch.computeSSD scenarioQuery scenarioCorpus
      = [{ filename := "entry_at_[0,0]", distance := 1 },
          { filename := "entry_at_[1,0]", distance := 0 },
          { filename := "entry_at_[0,1]", distance := 2 }] ∧
    rankStage sort (distanceStage BaselineMatch.computeSSD scenarioQuery scenarioCorpus) 2
      = Except.ok [{ filename := "entry_at_[1,0]", distance := 0 },
          { filename := "entry_at_[0,0]", distance := 1 }] := by
  have hd : distanceStage BaselineMatch.computeSSD scenarioQuery scenarioCorpus
      = [{ filename := "entry_at_[0,0]", distance := 1 },
          { filename := "entry_at_[1,0]", distance := 0 },
          { filename := "entry_at_[0,1]", distance := 2 }] := by
    norm_num [distanceStage, BaselineMatch.computeSSD, scenarioQuery, scenarioCorpus]
  refine ⟨hd, ?_⟩
  rw [hd]
  obtain ⟨hperm, hsorted⟩ := hsort
    [{ filename := "entry_at_[0,0]", distance := 1 },
      { filename := "entry_at_[1,0]", distance := 0 },
      { filename := "entry_at_[0,1]", distance := 2 }]
  have hout := sorted_perm_unique
    [({ filename := "entry_at_[1,0]", distance := 0 } : ImageMatch ℚ),
      { filename := "entry_at_[0,0]", distance := 1 },
      { filename := "entry_at_[0,1]", distance := 2 }] _
    (hperm.trans (List.Perm.swap _ _ _)) hsorted
    (by simp [ImageMatch.lt_iff])
  unfold rankStage
  rw [listTop_eq_take, hout]
  rfl

/-- Witness of claim C8 with a concrete sort. -/
theorem rank_three_entry_scenario_witness :
    StdSortSpec (frontInsertionSort (K := ℚ)) ∧
    rankStage frontInsertionSort
        (distanceStage BaselineMatch.computeSSD scenarioQuery scenarioCorpus) 2
      = Except.ok [{ filename := "entry_at_[1,0]", distance := 0 },
          { filename := "entry_at_[0,0]", distance := 1 }] :=
  ⟨frontInsertionSort_spec, (rank_three_entry_scenario frontInsertionSort frontInsertionSort_spec).2⟩

/-- Claim C9 fails on the code: for the all-zero gradient magnitudes of a 10x10
uniform image the binning loop of `computeTextureHistogram` divides by the
maximum magnitude 0 at its first pixel; no histogram with all mass in bin 0 is
produced. -/
theorem textureHistogram_uniform_image_divides_by_zero :
    TextureColorMatch.computeTextureHistogram uniformMagnitude 16
      = Except.error Fault.divisionByZero :=
  textureHistogram_uniform uniformMagnitude 16 (by decide) (by decide) (fun _ _ _ _ => rfl)

/-- Claim C10 fails on the code: on an all-black image `computeRGHistogram`
counts no pixel and its normalization loop divides every bin by
`totalPixels = 0`; no all-zero histogram is returned. -/
theorem rgHistogram_black_image_divides_by_zero :
    HistogramMatch.computeRGHistogram (K := ℚ) blackImage 16
      = Except.error Fault.divisionByZero :=
  rgHistogram_all_black blackImage 16 (by decide)
    (fun _ _ _ _ => show (0 : Fin 256).val + (0 : Fin 256).val + (0 : Fin 256).val < 1 by decide)

/-- Claim C11, amended: on vectors of different lengths the metrics return a
number: `computeSSD`, `sumSquaredDistance` and `histogramIntersection` return
the sentinel `-1`, `dotProduct` returns `0` and `cosineDistance` therefore
returns `1`. -/
theorem metrics_return_sentinel_on_mismatch {K : Type} [LinearOrderedField K] (sqrt : K → K)
    (a b : List K) (hlen : a.length ≠ b.length) :
    BaselineMatch.computeSSD a b = -1 ∧
    DeepEmbeddingMatch.sumSquaredDistance a b = -1 ∧
    HistogramMatch.histogramIntersection a b = -1 ∧
    DeepEmbeddingMatch.dotProduct a b = 0 ∧
    DeepEmbeddingMatch.cosineDistance sqrt a b = 1 :=
  mismatch_sentinels sqrt a b hlen

/-- Witness of the amended claim C11 on the vectors `[1]` and `[1, 2]`. -/
theorem metrics_return_sentinel_on_mismatch_witness :
    ([1] : List ℝ).length ≠ ([1, 2] : List ℝ).length ∧
    BaselineMatch.computeSSD ([1] : List ℝ) [1, 2] = -1 ∧
    DeepEmbeddingMatch.sumSquaredDistance ([1] : List ℝ) [1, 2] = -1 ∧
    HistogramMatch.histogramIntersection ([1] : List ℝ) [1, 2] = -1 ∧
    DeepEmbeddingMatch.dotProduct ([1] : List ℝ) [1, 2] = 0 ∧
    DeepEmbeddingMatch.cosineDistance Real.sqrt ([1] : List ℝ) [1, 2] = 1 :=
  ⟨by decide, metrics_return_sentinel_on_mismatch Real.sqrt [1] [1, 2] (by decide)⟩

/-- Claim C11 as stated fails: for lengths 1 and 2 every metric returns a
number, and the `1` that `cosineDistance` returns is also the distance of the
orthogonal equal-length vectors `[1, 0]` and `[0, 1]`. -/
theorem metrics_mismatch_counterexample :
    BaselineMatch.computeSSD ([1] : List ℝ) [1, 2] = -1 ∧
    DeepEmbeddingMatch.sumSquaredDistance ([1] : List ℝ) [1, 2] = -1 ∧
    HistogramMatch.histogramIntersection ([1] : List ℝ) [1 / 2, 1 / 2] = -1 ∧
    DeepEmbeddingMatch.cosineDistance Real.sqrt ([1] : List ℝ) [1, 0] = 1 ∧
    DeepEmbeddingMatch.cosineDistance Real.sqrt ([1, 0] : List ℝ) [0, 1] = 1 := by
  refine ⟨?_, ?_, ?_, ?_, ?_⟩
  · norm_num [BaselineMatch.computeSSD]
  · norm_num [DeepEmbeddingMatch.sumSquaredDistance]
  · norm_num [HistogramMatch.histogramIntersection]
  · exact (mismatch_sentinels Real.sqrt [1] [1, 0] (by decide)).2.2.2.2
  · norm_num [DeepEmbeddingMatch.cosineDistance, DeepEmbeddingMatch.normalizeVector,
      DeepEmbeddingMatch.computeL2Norm, DeepEmbeddingMatch.dotProduct]

/-- Claim C12, amended: no corpus entry is excluded.  In `deep_embedding_match`
the results listed for `k = n` are a rearrangement of one record per table row,
and a row whose embedding length differs from the target's is ranked with
distance 1; in `baseline_match` (every image at least 7x7) the listed file
names are a rearrangement of the corpus file names. -/
theorem mismatched_entry_is_ranked {K : Type} [LinearOrderedField K] (sqrt : K → K)
    (sort : List (ImageMatch K) → List (ImageMatch K)) (hsort : StdSortSpec sort)
    (targetImageName : String) (database : List (String × List K)) (target : String × List K)
    (hfind : database.find? (fun e => e.1 == targetImageName) = some target)
    (targetImage : Mat Vec3b) (corpus : List (String × Mat Vec3b))
    (htarget : 7 ≤ targetImage.rows ∧ 7 ≤ targetImage.cols)
    (hsize : ∀ e ∈ corpus, 7 ≤ e.2.rows ∧ 7 ≤ e.2.cols) :
    (∃ out, DeepEmbeddingMatch.main sqrt sort targetImageName database (database.length : Int)
        = Except.ok out ∧
      out.Perm (distanceStage (DeepEmbeddingMatch.cosineDistance sqrt) target.2 database) ∧
      ∀ e ∈ database, e.2.length ≠ target.2.length →
        ({ filename := e.1, distance := 1 } : ImageMatch K) ∈ out) ∧
    (∃ out, BaselineMatch.main sort targetImage corpus (corpus.length : Int) = Except.ok out ∧
      (out.map (fun m => m.filename)).Perm (corpus.map (fun e => e.1))) := by
  constructor
  · obtain ⟨hrun, hperm⟩ := rankStage_all sort hsort
      (distanceStage (DeepEmbeddingMatch.cosineDistance sqrt) target.2 database)
    have hlen : (distanceStage (DeepEmbeddingMatch.cosineDistance sqrt) target.2 database).length
        = database.length := by simp [distanceStage]
    rw [hlen] at hrun
    refine ⟨_, ?_, hperm, ?_⟩
    · unfold DeepEmbeddingMatch.main
      simp only [hfind]
      exact hrun
    · intro e he hne
      apply hperm.symm.subset
      refine List.mem_map.mpr ⟨e, he, ?_⟩
      rw [(mismatch_sentinels sqrt target.2 e.2 (fun h => hne h.symm)).2.2.2.2]
  · obtain ⟨tf, htf, _⟩ := extractCenterSquare_ok (K := K) targetImage htarget.1 htarget.2
    obtain ⟨results, hres, hnames⟩ := baseline_collect_ok tf corpus hsize
    obtain ⟨hrun, hperm⟩ := rankStage_all sort hsort results
    have hlen : results.length = corpus.length := by
      have := congrArg List.length hnames
      simpa using this
    rw [hlen] at hrun
    refine ⟨sort results, ?_, ?_⟩
    · unfold BaselineMatch.main
      simp only [htf, hres]
      exact hrun
    · rw [← hnames]
      exact hperm.map _

/-- Witness of the amended claim C12: a table whose second row has three
components against a target with two, and a corpus of two 7x7 images. -/
theorem mismatched_entry_is_ranked_witness :
    (∃ out, DeepEmbeddingMatch.main Real.sqrt frontInsertionSort "t.jpg" mismatchDatabase 2
        = Except.ok out ∧
      ({ filename := "u.jpg", distance := 1 } : ImageMatch ℝ) ∈ out) ∧
    (∃ out, BaselineMatch.main (K := ℝ) frontInsertionSort sevenImage sevenCorpus 2
        = Except.ok out ∧
      (out.map (fun m => m.filename)).Perm ["b.jpg", "a.jpg"]) :=
  have h := mismatched_entry_is_ranked Real.sqrt frontInsertionSort frontInsertionSort_spec
    "t.jpg" mismatchDatabase ("t.jpg", [1, 0]) (by simp [mismatchDatabase])
    sevenImage sevenCorpus ⟨le_refl _, le_refl _⟩
    (by
      intro e he
      simp only [sevenCorpus, List.mem_cons, List.mem_singleton, List.mem_nil_iff, or_false] at he
      rcases he with rfl | rfl <;> exact ⟨le_refl _, le_refl _⟩)
  ⟨⟨h.1.choose, h.1.choose_spec.1,
      h.1.choose_spec.2.2 ("u.jpg", [1, 0, 0]) (by simp [mismatchDatabase]) (by decide)⟩,
    h.2⟩

/-- Claim C12 as stated fails: the table row `u.jpg`, whose embedding has three
components while the target's has two, is listed with distance 1. -/
theorem mismatched_entry_ranked_counterexample :
    StdSortSpec (frontInsertionSort (K := ℝ)) ∧
    DeepEmbeddingMatch.main Real.sqrt frontInsertionSort "t.jpg" mismatchDatabase 2
      = Except.ok [{ filename := "t.jpg", distance := 0 }, { filename := "u.jpg", distance := 1 }] := by
  refine ⟨frontInsertionSort_spec, ?_⟩
  have h0 : DeepEmbeddingMatch.cosineDistance Real.sqrt ([1, 0] : List ℝ) [1, 0] = 0 := by
    norm_num [DeepEmbeddingMatch.cosineDistance, DeepEmbeddingMatch.normalizeVector,
      DeepEmbeddingMatch.computeL2Norm, DeepEmbeddingMatch.dotProduct]
  have h1 : DeepEmbeddingMatch.cosineDistance Real.sqrt ([1, 0] : List ℝ) [1, 0, 0] = 1 :=
    (mismatch_sentinels Real.sqrt [1, 0] [1, 0, 0] (by decide)).2.2.2.2
  simp [DeepEmbeddingMatch.main, mismatchDatabase, distanceStage, rankStage, listTop_eq_take,
    h0, h1, frontInsertionSort, insertFront, ImageMatch.lt_iff]

/-- Claim C13 fails on the code: on a 3x3 image `extractCenterSquare` performs
no size check and evaluates `image.at<Vec3b>(-2, -2)`, a read outside the
image; the fault marks that read, it is not an error the function reports. -/
theorem extractCenterSquare_tiny_image_reads_out_of_bounds :
    BaselineMatch.extractCenterSquare (K := ℚ) tinyImage = Except.error Fault.outOfBounds ∧
    tinyImage.at? ((tinyImage.rows : Int) / 2 - 3) ((tinyImage.cols : Int) / 2 - 3)
      = Except.error Fault.outOfBounds :=
  ⟨extractCenterSquare_small tinyImage (Or.inl (by decide)), by simp [Mat.at?, tinyImage]⟩

/-- Claim C14: on an image with at least 7 rows and 7 columns
`extractCenterSquare` returns (no read outside the image) a vector of exactly
147 values in which, for `di, dj < 7`, the elements `3 * (7 * di + dj) + c`
for `c = 0, 1, 2` are the stored channels 0, 1, 2 (B, G, R) of the pixel at row
`rows / 2 - 3 + di`, column `cols / 2 - 3 + dj`. -/
theorem extractCenterSquare_layout {K : Type} [LinearOrderedField K] (image : Mat Vec3b)
    (hrows : 7 ≤ image.rows) (hcols : 7 ≤ image.cols) :
    ∃ features : List K, BaselineMatch.extractCenterSquare image = Except.ok features ∧
      features.length = 147 ∧
      ∀ di dj, di < 7 → dj < 7 →
        features[3 * (7 * di + dj)]?
          = some ((image.data (image.rows / 2 - 3 + di) (image.cols / 2 - 3 + dj)).c0.val : K) ∧
        features[3 * (7 * di + dj) + 1]?
          = some ((image.data (image.rows / 2 - 3 + di) (image.cols / 2 - 3 + dj)).c1.val : K) ∧
        features[3 * (7 * di + dj) + 2]?
          = some ((image.data (image.rows / 2 - 3 + di) (image.cols / 2 - 3 + dj)).c2.val : K) := by
  obtain ⟨features, hf, hlen⟩ := extractCenterSquare_ok (K := K) image hrows hcols
  refine ⟨features, hf, hlen, ?_⟩
  intro di dj hdi hdj
  have h0 := extractCenterSquare_entry image hrows hcols features hf di dj 0 hdi hdj (by decide)
  have h1 := extractCenterSquare_entry image hrows hcols features hf di dj 1 hdi hdj (by decide)
  have h2 := extractCenterSquare_entry image hrows hcols features hf di dj 2 hdi hdj (by decide)
  exact ⟨h0, h1, h2⟩

/-- Witness of claim C14 on a 7x7 image: 147 values, and the green channel of
the pixel at offset `(2, 5)` of the block is element `3 * (7 * 2 + 5) + 1`. -/
theorem extractCenterSquare_layout_witness :
    ∃ features : List ℚ, BaselineMatch.extractCenterSquare sevenImage = Except.ok features ∧
      features.length = 147 ∧ features[3 * (7 * 2 + 5) + 1]? = some 20 :=
  have h := extractCenterSquare_layout (K := ℚ) sevenImage (le_refl _) (le_refl _)
  ⟨h.choose, h.choose_spec.1, h.choose_spec.2.1,
    (h.choose_spec.2.2 2 5 (by decide) (by decide)).2.1.trans
      (congrArg some (show (((20 : Fin 256).val : Nat) : ℚ) = 20 by
        rw [show (20 : Fin 256).val = 20 from rfl]
        norm_num))⟩

/-- Claim C15, amended: when no table row has exactly the requested name, the
lookup of `main` yields the all-zero vector of length 512 (a found row with a
non-empty embedding yields that embedding); no miss is signalled. -/
theorem lookupEmbedding_zero_fills_on_miss {K : Type} [LinearOrderedField K]
    (table : List (String × List K)) (name : String) (hmiss : ∀ e ∈ table, e.1 ≠ name) :
    CustomSunsetMatch.lookupEmbedding table name = List.replicate 512 0 ∧
    (CustomSunsetMatch.lookupEmbedding table name).length = 512 ∧
    ∀ x ∈ CustomSunsetMatch.lookupEmbedding table name, x = 0 := by
  rw [lookup_miss table name hmiss]
  refine ⟨rfl, List.length_replicate _ _, ?_⟩
  intro x hx
  exact List.eq_of_mem_replicate hx

/-- Witness of the amended claim C15: `b.jpg` is not in a table that holds
only `a.jpg`. -/
theorem lookupEmbedding_zero_fills_on_miss_witness :
    CustomSunsetMatch.lookupEmbedding oneRowTable "b.jpg" = List.replicate 512 0 :=
  (lookupEmbedding_zero_fills_on_miss oneRowTable "b.jpg"
    (by
      intro e he
      simp only [oneRowTable, List.mem_singleton] at he
      subst he
      decide)).1

/-- Claim C15 as stated fails: the lookup of the absent name `b.jpg` returns
the all-zero vector of length 512, while the present name returns its row. -/
theorem lookupEmbedding_miss_counterexample :
    CustomSunsetMatch.lookupEmbedding oneRowTable "b.jpg" = List.replicate 512 0 ∧
    CustomSunsetMatch.lookupEmbedding oneRowTable "a.jpg" = [1, 2] := by
  constructor
  · apply lookup_miss
    intro e he
    simp only [oneRowTable, List.mem_singleton] at he
    subst he
    decide
  · exact lookup_hit oneRowTable "a.jpg" ("a.jpg", [1, 2]) (by simp [oneRowTable]) (by simp)

/-- Claim C16: for equal-length histograms with non-negative entries,
`histogramIntersection a b` of `histogram_match.cpp` is `1 - Σ min(a_i, b_i)`,
it is at most 1, and it is at least 0 when the entries of `a` sum to 1 (the
sum of `b` is not needed). -/
theorem histogramIntersection_pmf_range {K : Type} [LinearOrderedField K] (a b : List K)
    (hlen : a.length = b.length) (ha : ∀ x ∈ a, 0 ≤ x) (hb : ∀ x ∈ b, 0 ≤ x)
    (hsum : a.sum = 1) :
    HistogramMatch.histogramIntersection a b = 1 - (List.zipWith min a b).sum ∧
    0 ≤ HistogramMatch.histogramIntersection a b ∧
    HistogramMatch.histogramIntersection a b ≤ 1 := by
  refine ⟨histIntersection_eq a b hlen, histogramIntersection_nonneg a b hlen hsum, ?_⟩
  rw [histIntersection_eq a b hlen]
  have := sum_zipWith_min_nonneg a b ha hb
  linarith

/-- Witness of claim C16 on the histograms `[1/2, 1/2]` and `[1/4, 3/4]`. -/
theorem histogramIntersection_pmf_range_witness :
    HistogramMatch.histogramIntersection ([1 / 2, 1 / 2] : List ℚ) [1 / 4, 3 / 4]
      = 1 - (List.zipWith min ([1 / 2, 1 / 2] : List ℚ) [1 / 4, 3 / 4]).sum ∧
    0 ≤ HistogramMatch.histogramIntersection ([1 / 2, 1 / 2] : List ℚ) [1 / 4, 3 / 4] ∧
    HistogramMatch.histogramIntersection ([1 / 2, 1 / 2] : List ℚ) [1 / 4, 3 / 4] ≤ 1 :=
  histogramIntersection_pmf_range [1 / 2, 1 / 2] [1 / 4, 3 / 4] rfl
    (by norm_num) (by norm_num) (by norm_num)

/-- Claim C17: on equal-length vectors `histogramIntersection` and both
`cosineDistance` functions give the same value with the arguments swapped (the
one of `custom_sunset_match.cpp` returns without a fault);
`computeMultiHistogramDistance` is symmetric; and `computeSunsetDistance`
returns the same value when the two feature tuples are swapped. -/
theorem other_metrics_symmetric {K : Type} [LinearOrderedField K] (sqrt : K → K)
    (a b : List K) (hlen : a.length = b.length) (p q : List K × List K)
    (w1 g1 e1 w2 g2 e2 : K) (d1 d2 : List K) (hd : d1.length = d2.length) :
    HistogramMatch.histogramIntersection a b = HistogramMatch.histogramIntersection b a ∧
    (∃ c, CustomSunsetMatch.cosineDistance sqrt a b = Except.ok c ∧
      CustomSunsetMatch.cosineDistance sqrt b a = Except.ok c) ∧
    DeepEmbeddingMatch.cosineDistance sqrt a b = DeepEmbeddingMatch.cosineDistance sqrt b a ∧
    MultiHistogramMatch.computeMultiHistogramDistance p q
      = MultiHistogramMatch.computeMultiHistogramDistance q p ∧
    (∃ d, CustomSunsetMatch.computeSunsetDistance sqrt w1 g1 e1 d1 w2 g2 e2 d2 = Except.ok d ∧
      CustomSunsetMatch.computeSunsetDistance sqrt w2 g2 e2 d2 w1 g1 e1 d1 = Except.ok d) := by
  refine ⟨histIntersection_comm a b, ⟨_, sunsetCosine_eq sqrt a b hlen, ?_⟩,
    deepCosine_comm sqrt a b, ?_, ⟨_, sunsetDistance_eq sqrt w1 g1 e1 w2 g2 e2 d1 d2 hd, ?_⟩⟩
  · rw [sunsetCosine_eq sqrt b a hlen.symm, deepCosine_comm]
  · unfold MultiHistogramMatch.computeMultiHistogramDistance
    simp only
    rw [multiIntersection_comm p.1 q.1, multiIntersection_comm p.2 q.2]
  · rw [sunsetDistance_eq sqrt w2 g2 e2 w1 g1 e1 d2 d1 hd.symm, deepCosine_comm sqrt d2 d1,
      abs_sub_comm w2 w1, abs_sub_comm g2 g1, abs_sub_comm e2 e1]

/-- Witness of claim C17 on vectors of length 2. -/
theorem other_metrics_symmetric_witness :
    HistogramMatch.histogramIntersection ([1, 0] : List ℝ) [0, 1]
      = HistogramMatch.histogramIntersection [0, 1] [1, 0] ∧
    (∃ d, CustomSunsetMatch.computeSunsetDistance Real.sqrt 1 2 3 ([3, 4] : List ℝ) 0 5 1 [4, 3]
        = Except.ok d ∧
      CustomSunsetMatch.computeSunsetDistance Real.sqrt 0 5 1 ([4, 3] : List ℝ) 1 2 3 [3, 4]
        = Except.ok d) :=
  have h := other_metrics_symmetric Real.sqrt ([1, 0] : List ℝ) [0, 1] rfl
    (([1], [1]) : List ℝ × List ℝ) ([1], [1]) 1 2 3 0 5 1 [3, 4] [4, 3] rfl
  ⟨h.1, h.2.2.2.2⟩

/-- Claim C19, amended: the least-similar listing consists of the last
`min(5, n)` records of the same sorted vector whose first `min(k, n)` records
are the top listing; the number 5 is fixed and does not depend on `k`. -/
theorem sunset_bottom_listing_last_five {K : Type} [LinearOrderedField K]
    (sort : List (CustomSunsetMatch.ImageFeatures K) → List (CustomSunsetMatch.ImageFeatures K))
    (hsort : CustomSunsetMatch.SortSpec sort)
    (results : List (CustomSunsetMatch.ImageFeatures K)) (numMatches : Int) :
    (sort results).Perm results ∧
    (sort results).Pairwise (fun a b => a.distance ≤ b.distance) ∧
    CustomSunsetMatch.rankStage sort results numMatches
      = Except.ok ((sort results).take (min numMatches (results.length : Int)).toNat,
          (sort results).drop (results.length - min 5 results.length)) := by
  obtain ⟨hperm, hsorted⟩ := hsort results
  refine ⟨hperm, hsorted.imp (fun h => not_lt.mp h), ?_⟩
  rw [sunset_rankStage_eq, hperm.length_eq]

/-- Witness of the amended claim C19: three records and `k = 1`. -/
theorem sunset_bottom_listing_last_five_witness :
    CustomSunsetMatch.SortSpec (CustomSunsetMatch.distanceSort (K := ℚ)) ∧
    CustomSunsetMatch.rankStage CustomSunsetMatch.distanceSort sunsetResults 1
      = Except.ok ((CustomSunsetMatch.distanceSort sunsetResults).take 1,
          (CustomSunsetMatch.distanceSort sunsetResults).drop 0) :=
  ⟨distanceSort_spec,
    (sunset_bottom_listing_last_five CustomSunsetMatch.distanceSort distanceSort_spec
      sunsetResults 1).2.2⟩

/-- Claim C19 as stated fails: with three results and `k = 1` the top listing
has one record, and the least-similar listing has all three (`b`, `a`, `c` in
ascending distance), not only the last `min(1, 3) = 1`. -/
theorem sunset_bottom_listing_counterexample :
    CustomSunsetMatch.SortSpec (CustomSunsetMatch.distanceSort (K := ℚ)) ∧
    ∃ top bottom, CustomSunsetMatch.rankStage CustomSunsetMatch.distanceSort sunsetResults 1
        = Except.ok (top, bottom) ∧
      top.map (fun m => m.filename) = ["b.jpg"] ∧
      bottom.map (fun m => m.filename) = ["b.jpg", "a.jpg", "c.jpg"] := by
  refine ⟨distanceSort_spec, _, _, sunset_rankStage_eq _ _ _, ?_, ?_⟩
  · norm_num [CustomSunsetMatch.distanceSort, sunsetResults, List.insertionSort,
      List.orderedInsert]
  · norm_num [CustomSunsetMatch.distanceSort, sunsetResults, List.insertionSort,
      List.orderedInsert]

/-- Claim C20: for equal-length histogram pairs `computeMultiHistogramDistance`
and `computeCombinedDistance` equal the fused distance of the specification, the
average of `1 - Σ min` over the two pairs, which is the average of
`histogramIntersection` of `histogram_match.cpp` on the two pairs. -/
theorem fused_distance_is_average {K : Type} [LinearOrderedField K]
    (t1 b1 t2 b2 c1 x1 c2 x2 : List K) (ht : t1.length = t2.length)
    (hb : b1.length = b2.length) (hc : c1.length = c2.length) (hx : x1.length = x2.length) :
    MultiHistogramMatch.computeMultiHistogramDistance (t1, b1) (t2, b2)
      = fusedHistogramDistanceSpec t1 t2 b1 b2 ∧
    MultiHistogramMatch.computeMultiHistogramDistance (t1, b1) (t2, b2)
      = (HistogramMatch.histogramIntersection t1 t2
          + HistogramMatch.histogramIntersection b1 b2) / 2 ∧
    TextureColorMatch.computeCombinedDistance c1 x1 c2 x2
      = fusedHistogramDistanceSpec c1 c2 x1 x2 ∧
    TextureColorMatch.computeCombinedDistance c1 x1 c2 x2
      = (HistogramMatch.histogramIntersection c1 c2
          + HistogramMatch.histogramIntersection x1 x2) / 2 := by
  unfold MultiHistogramMatch.computeMultiHistogramDistance
    TextureColorMatch.computeCombinedDistance fusedHistogramDistanceSpec
  simp only [multiIntersection_eq t1 t2 ht, multiIntersection_eq b1 b2 hb,
    textureIntersection_eq c1 c2 hc, textureIntersection_eq x1 x2 hx,
    histIntersection_eq t1 t2 ht, histIntersection_eq b1 b2 hb,
    histIntersection_eq c1 c2 hc, histIntersection_eq x1 x2 hx]
  refine ⟨?_, ?_, ?_, ?_⟩ <;> ring

/-- Witness of claim C20 on histograms of two bins. -/
theorem fused_distance_is_average_witness :
    MultiHistogramMatch.computeMultiHistogramDistance
        (([1 / 2, 1 / 2] : List ℚ), ([1, 0] : List ℚ)) ([1 / 4, 3 / 4], [0, 1])
      = fusedHistogramDistanceSpec [1 / 2, 1 / 2] [1 / 4, 3 / 4] [1, 0] [0, 1] ∧
    TextureColorMatch.computeCombinedDistance ([1 / 2, 1 / 2] : List ℚ) [1, 0] [1 / 4, 3 / 4] [0, 1]
      = fusedHistogramDistanceSpec [1 / 2, 1 / 2] [1 / 4, 3 / 4] [1, 0] [0, 1] :=
  have h := fused_distance_is_average ([1 / 2, 1 / 2] : List ℚ) [1, 0] [1 / 4, 3 / 4] [0, 1]
    [1 / 2, 1 / 2] [1, 0] [1 / 4, 3 / 4] [0, 1] rfl rfl rfl rfl
  ⟨h.1, h.2.2.1⟩

/-- Claim C21 fails on the code: the 3x1 images `warmTopImage` and
`warmBottomImage` have vertical gradients 382.5 and -382.5, so the quantity
`|gradient1 - gradient2| / 50` of `computeSunsetDistance` is 15.3, outside the
range `[0, 1]` that the comment of the source announces. -/
theorem gradient_term_exceeds_unit_range :
    CustomSunsetMatch.computeVerticalGradient (K := ℚ) warmTopImage = Except.ok (765 / 2) ∧
    CustomSunsetMatch.computeVerticalGradient (K := ℚ) warmBottomImage = Except.ok (-765 / 2) ∧
    |(765 / 2 : ℚ) - (-765 / 2)| / 50 = 153 / 10 ∧
    ¬ (|(765 / 2 : ℚ) - (-765 / 2)| / 50 ≤ 1) := by
  have h255 : ((255 : Fin 256) : ℕ) = 255 := rfl
  have habs : |(765 / 2 : ℚ) - (-765 / 2)| = 765 := by
    rw [abs_of_nonneg (by norm_num)]
    norm_num
  refine ⟨?_, ?_, ?_, ?_⟩
  · norm_num [CustomSunsetMatch.computeVerticalGradient, forGrid, intRange, List.range_succ,
      CustomSunsetMatch.sumLoopBody, Mat.at?, warmTopImage, CustomSunsetMatch.divideSums, fdiv,
      h255]
  · norm_num [CustomSunsetMatch.computeVerticalGradient, forGrid, intRange, List.range_succ,
      CustomSunsetMatch.sumLoopBody, Mat.at?, warmBottomImage, CustomSunsetMatch.divideSums,
      fdiv, h255, show Int.toNat 2 = 2 from rfl]
  · rw [habs]
    norm_num
  · rw [habs]
    norm_num

/-- Claim C22: `computeSSD a b` is `-1` exactly when the lengths differ; for
equal lengths it is at least 0; and in a vector sorted by `std::sort` the record
of a corpus entry whose length differs from the target's stands before the
record of every entry of matching length. -/
theorem computeSSD_sentinel_iff_mismatch {K : Type} [LinearOrderedField K] (a b : List K)
    (sort : List (ImageMatch K) → List (ImageMatch K)) (hsort : StdSortSpec sort)
    (target : List K) (corpus : List (String × List K)) (e1 e2 : String × List K)
    (h1 : e1 ∈ corpus) (h2 : e2 ∈ corpus) (hmis : e1.2.length ≠ target.length)
    (hfit : e2.2.length = target.length) :
    (BaselineMatch.computeSSD a b = -1 ↔ a.length ≠ b.length) ∧
    (a.length = b.length → 0 ≤ BaselineMatch.computeSSD a b) ∧
    [({ filename := e1.1, distance := -1 } : ImageMatch K),
      { filename := e2.1, distance := BaselineMatch.computeSSD target e2.2 }].Sublist
        (sort (distanceStage BaselineMatch.computeSSD target corpus)) := by
  refine ⟨computeSSD_eq_neg_one_iff a b, computeSSD_nonneg a b, ?_⟩
  apply sublist_of_distance_lt sort hsort
  · refine List.mem_map.mpr ⟨e1, h1, ?_⟩
    rw [(computeSSD_eq_neg_one_iff target e1.2).mpr (fun h => hmis h.symm)]
  · exact List.mem_map.mpr ⟨e2, h2, rfl⟩
  · have := computeSSD_nonneg target e2.2 hfit.symm
    show (-1 : K) < BaselineMatch.computeSSD target e2.2
    linarith

/-- Witness of claim C22: target `[1, 0]`, a corpus entry of length 3 listed
after an entry of length 2. -/
theorem computeSSD_sentinel_iff_mismatch_witness :
    (BaselineMatch.computeSSD ([1] : List ℚ) [1, 2] = -1 ↔
      ([1] : List ℚ).length ≠ ([1, 2] : List ℚ).length) ∧
    [({ filename := "long.jpg", distance := -1 } : ImageMatch ℚ),
      { filename := "fit.jpg", distance := BaselineMatch.computeSSD [1, 0] [0, 0] }].Sublist
        (frontInsertionSort (distanceStage BaselineMatch.computeSSD [1, 0]
          [("fit.jpg", [0, 0]), ("long.jpg", [1, 0, 0])])) :=
  have h := computeSSD_sentinel_iff_mismatch ([1] : List ℚ) [1, 2] frontInsertionSort
    frontInsertionSort_spec [1, 0] [("fit.jpg", [0, 0]), ("long.jpg", [1, 0, 0])]
    ("long.jpg", [1, 0, 0]) ("fit.jpg", [0, 0]) (by simp) (by simp) (by decide) rfl
  ⟨h.1, h.2.2⟩

/-- Claim C23: `normalizeVector` of `custom_sunset_match.cpp` returns an
all-zero vector unchanged, `cosineDistance z v` is exactly 1 for an all-zero `z`
and every `v` of the same length, also for `v = z`; the zero-filled result of a
lookup miss is at distance 1 from every embedding of length 512, and two
identical descriptors with an all-zero embedding are at sunset distance 0.30. -/
theorem zero_embedding_cosine_distance_one {K : Type} [LinearOrderedField K] (sqrt : K → K)
    (z v : List K) (hz : ∀ x ∈ z, x = 0) (hlen : z.length = v.length)
    (table : List (String × List K)) (name : String) (hmiss : ∀ e ∈ table, e.1 ≠ name)
    (u : List K) (hu : u.length = 512) (w g e : K) :
    CustomSunsetMatch.normalizeVector sqrt z = z ∧
    CustomSunsetMatch.cosineDistance sqrt z v = Except.ok 1 ∧
    CustomSunsetMatch.cosineDistance sqrt z z = Except.ok 1 ∧
    CustomSunsetMatch.cosineDistance sqrt (CustomSunsetMatch.lookupEmbedding table name) u
      = Except.ok 1 ∧
    CustomSunsetMatch.computeSunsetDistance sqrt w g e z w g e z = Except.ok 0.30 := by
  refine ⟨sunsetNormalize_zero sqrt z hz, sunsetCosine_zero_left sqrt z v hz hlen,
    sunsetCosine_zero_left sqrt z z hz rfl, ?_, ?_⟩
  · rw [lookup_miss table name hmiss]
    apply sunsetCosine_zero_left
    · intro x hx
      exact List.eq_of_mem_replicate hx
    · rw [List.length_replicate, hu]
  · rw [sunsetDistance_eq sqrt w g e w g e z z rfl, deepCosine_zero_left sqrt z z hz]
    norm_num

/-- Witness of claim C23: the zero vector of length 2 against `[3, 4]`, and the
lookup of a name that the table does not hold. -/
theorem zero_embedding_cosine_distance_one_witness :
    CustomSunsetMatch.cosineDistance Real.sqrt ([0, 0] : List ℝ) [3, 4] = Except.ok 1 ∧
    CustomSunsetMatch.cosineDistance Real.sqrt ([0, 0] : List ℝ) [0, 0] = Except.ok 1 ∧
    CustomSunsetMatch.computeSunsetDistance Real.sqrt 1 2 3 ([0, 0] : List ℝ) 1 2 3 [0, 0]
      = Except.ok 0.30 :=
  have h := zero_embedding_cosine_distance_one Real.sqrt ([0, 0] : List ℝ) [3, 4]
    (by intro x hx; simpa using hx) rfl
    ([("a.jpg", [1, 2])] : List (String × List ℝ)) "b.jpg"
    (by
      intro e he
      simp only [List.mem_singleton] at he
      subst he
      decide)
    (List.replicate 512 1) (List.length_replicate _ _) 1 2 3
  ⟨h.2.1, h.2.2.1, h.2.2.2.2⟩

end ImageRetrieval
